import Mathlib

/-!
# Frame buffer console (`drivers/video/fbcon.c`): a shallow embedding

The console translates character-grid operations into calls on a display
backend (`fb_fillrect`, `fb_copyarea`, `fb_imageblit`, `fb_cursor`,
`fb_set_cmap`, `fb_blank`).  Each C function of `fbcon.c` becomes a Lean
function of the same name that returns the list of backend calls it issues,
together with its return value and the updated device state where it has one.

C integers are mathematical integers reduced explicitly: `u32` is the value
of an `unsigned int` expression, `s32` the value stored into an `int`.

The interrupt handler of the XT keyboard (`drivers/input/xtkbd.c`), the
console's key event producer, is embedded the same way.
-/

namespace Fbcon

/-! ## Machine arithmetic -/

/-- Value of an `unsigned int` expression: reduction modulo `2^32`. -/
def u32 (z : Int) : Int := z % 4294967296

/-- Value stored into an `int` variable: two's complement reduction into
`[-2^31, 2^31)`. -/
def s32 (z : Int) : Int := (z + 2147483648) % 4294967296 - 2147483648

/-- Value of an `unsigned short` (`u16`) object. -/
def u16 (z : Int) : Int := z % 65536

/-- Value of an `unsigned char` (`u8`) object. -/
def u8 (z : Int) : Int := z % 256

/-- Bitwise and of two C integers, computed on their 32-bit two's complement
representations (the right operand of every `&` in `fbcon.c` is a small
non-negative mask, so the result is non-negative). -/
def band (a b : Int) : Int := Int.ofNat (Nat.land (u32 a).toNat (u32 b).toNat)

/-- The range of a C `int`. -/
def int_range (z : Int) : Prop := -2147483648 ≤ z ∧ z < 2147483648

/-- The range of a C `unsigned int`. -/
def uint_range (z : Int) : Prop := 0 ≤ z ∧ z < 4294967296

instance (z : Int) : Decidable (int_range z) := by unfold int_range; infer_instance

instance (z : Int) : Decidable (uint_range z) := by unfold uint_range; infer_instance

/-! ## Constants of the headers

The headers `linux/fb.h`, `linux/console.h` and `asm/errno.h` are not part of
the sources; the constants below carry the values of the Linux headers.  The
functions only compare against them, so only their being distinct matters. -/

/-- Modelled from the spec: `FB_VISUAL_PSEUDOCOLOR` of the absent `linux/fb.h`,
the visual of an indexed-colour surface. -/
def FB_VISUAL_PSEUDOCOLOR : Int := 3

/-- Modelled from the spec: `FB_VISUAL_DIRECTCOLOR` of the absent `linux/fb.h`. -/
def FB_VISUAL_DIRECTCOLOR : Int := 4

/-- Modelled from the spec: `ROP_COPY` of the absent `linux/fb.h`, the raster
operation that overwrites the destination. -/
def ROP_COPY : Int := 0

/-- Modelled from the spec: `SM_UP` of the absent `linux/console.h`. -/
def SM_UP : Int := 1

/-- Modelled from the spec: `SM_DOWN` of the absent `linux/console.h`. -/
def SM_DOWN : Int := 2

/-! ## Data model -/

/-- The font of a console, `vc->vc_font`: `width`, `height` and `charcount`
are `unsigned int` (the declaration is in `linux/kd.h`, not among the sources;
`fbcon_putc` stores `(width+7)>>3` into an `unsigned int`); `data` is the
glyph buffer, addressed here by byte offset. -/
structure ConsoleFont where
  width : Int
  height : Int
  charcount : Int
  deriving DecidableEq, Repr

/-- The fields of `struct vc_data` that `fbcon.c` reads or writes. -/
structure VcData where
  vc_font : ConsoleFont
  vc_x : Int
  vc_y : Int
  vc_cursor_type : Int
  vc_palette : Nat → Int
  vc_cols : Int
  vc_rows : Int

/-- Modelled from the spec: the macros `attr_fgcol`, `attr_bgcol` and
`attr_bgcol_ec` of `fbcon.h`, which is not among the sources.  They extract
the foreground or background colour index from a character word (from the
console's erase character for `attr_bgcol_ec`); they are taken as given. -/
structure AttrMacros where
  attr_fgcol : VcData → Int → Nat
  attr_bgcol : VcData → Int → Nat
  attr_bgcol_ec : VcData → Nat

/-- The hardware cursor record `struct fbcursor`, as far as `fbcon.c` uses it. -/
structure FbCursor where
  set : Int
  enable : Int
  pos_x : Int
  pos_y : Int
  size_x : Int
  size_y : Int
  deriving DecidableEq, Repr

/-- The fields of `struct fb_info` (with its `fix`, `var` and `fbops`) that
`fbcon.c` uses.  `pseudo_palette` is untyped memory (`void *`), given byte by
byte; `big_endian` is the byte order in which the machine reads it.
`has_fb_blank` says whether `fbops->fb_blank` is non-NULL. -/
structure FbInfo where
  fix_visual : Int
  var_xres : Int
  var_yres : Int
  var_bits_per_pixel : Int
  var_accel_flags : Int
  pseudo_palette : Nat → Nat
  big_endian : Bool
  cursor : FbCursor
  has_fb_blank : Bool

/-- Element `i` of `(u16 *) mem`. -/
def read_u16 (big_endian : Bool) (mem : Nat → Nat) (i : Nat) : Int :=
  let b0 : Int := mem (2 * i) % 256
  let b1 : Int := mem (2 * i + 1) % 256
  if big_endian then b0 * 256 + b1 else b1 * 256 + b0

/-- Element `i` of `(u32 *) mem`. -/
def read_u32 (big_endian : Bool) (mem : Nat → Nat) (i : Nat) : Int :=
  let b0 : Int := mem (4 * i) % 256
  let b1 : Int := mem (4 * i + 1) % 256
  let b2 : Int := mem (4 * i + 2) % 256
  let b3 : Int := mem (4 * i + 3) % 256
  if big_endian then ((b0 * 256 + b1) * 256 + b2) * 256 + b3
  else ((b3 * 256 + b2) * 256 + b1) * 256 + b0

/-- The bitmap descriptor `struct fb_image` handed to `fb_imageblit`.  `data`
is the byte offset of the bitmap from `vc->vc_font.data`. -/
structure FbImage where
  x : Int
  y : Int
  width : Int
  height : Int
  fg_color : Int
  bg_color : Int
  depth : Int
  data : Int
  deriving DecidableEq, Repr

/-- A colour map `struct fb_cmap`.  A slot is `none` until it is written
(freshly allocated memory is uninitialised). -/
structure FbCmap where
  start : Int
  len : Int
  red : List (Option Int)
  green : List (Option Int)
  blue : List (Option Int)
  deriving DecidableEq, Repr

/-- One call on the display backend, with its arguments. -/
inductive FbCall where
  | fb_fillrect (x y width height : Int) (color : Int) (rop : Int)
  | fb_copyarea (sx sy width height dx dy : Int)
  | fb_imageblit (image : FbImage)
  | fb_cursor (cursor : FbCursor)
  | fb_set_cmap (cmap : FbCmap) (kspc : Int)
  | fb_blank (blank : Int)
  deriving DecidableEq, Repr

/-! ## Region operations -/

/-- The function `fbcon_clear` (fbcon.c:291-315). -/
def fbcon_clear (m : AttrMacros) (vc : VcData) (info : FbInfo)
    (sy sx height width : Int) : List FbCall :=
  let color : Int :=
    if info.fix_visual = FB_VISUAL_PSEUDOCOLOR then
      (m.attr_bgcol_ec vc : Int)
    else
      if info.var_bits_per_pixel > 16 then
        read_u32 info.big_endian info.pseudo_palette (m.attr_bgcol_ec vc)
      else
        read_u16 info.big_endian info.pseudo_palette (m.attr_bgcol_ec vc)
  let height := s32 (height + 1)
  let sx := s32 (u32 (u32 sx * vc.vc_font.width))
  let sy := s32 (u32 (u32 sy * vc.vc_font.height))
  let width := s32 (u32 (u32 width * vc.vc_font.width))
  let height := s32 (u32 (u32 height * vc.vc_font.height))
  [FbCall.fb_fillrect sx sy width height color ROP_COPY]

/-- The function `fbcon_scroll_region` (fbcon.c:452-471): the backend calls
and the return value.  The parameter `b` is never read. -/
def fbcon_scroll_region (vc : VcData) (info : FbInfo) (t _b dir count : Int) :
    List FbCall × Int :=
  let height := u32 (u32 count * vc.vc_font.height)
  let sy := u32 (u32 t * vc.vc_font.height)
  let dy : Int :=
    if dir = SM_UP then s32 (u32 (sy - height))
    else if dir = SM_DOWN then s32 (u32 (sy + height))
    else 0
  ([FbCall.fb_copyarea 0 sy info.var_xres height 0 dy], 0)

/-! ## Glyph renderer -/

/-- The function `fbcon_putc` (fbcon.c:317-348). -/
def fbcon_putc (m : AttrMacros) (vc : VcData) (info : FbInfo)
    (c ypos xpos : Int) : List FbCall :=
  let charmask : Int := if vc.vc_font.charcount > 256 then 0x1ff else 0xff
  let width := u32 (vc.vc_font.width + 7) / 8
  let fg_color : Int :=
    if info.fix_visual = FB_VISUAL_PSEUDOCOLOR then
      (m.attr_fgcol vc c : Int)
    else
      if info.var_bits_per_pixel > 16 then
        read_u32 info.big_endian info.pseudo_palette (m.attr_fgcol vc c)
      else
        read_u16 info.big_endian info.pseudo_palette (m.attr_fgcol vc c)
  let bg_color : Int :=
    if info.fix_visual = FB_VISUAL_PSEUDOCOLOR then
      (m.attr_bgcol vc c : Int)
    else
      if info.var_bits_per_pixel > 16 then
        read_u32 info.big_endian info.pseudo_palette (m.attr_bgcol vc c)
      else
        read_u16 info.big_endian info.pseudo_palette (m.attr_bgcol vc c)
  let image : FbImage :=
    { x := u32 (u32 xpos * vc.vc_font.width)
      y := u32 (u32 ypos * vc.vc_font.height)
      width := vc.vc_font.width
      height := vc.vc_font.height
      fg_color := fg_color
      bg_color := bg_color
      depth := 1
      data := u32 (u32 (band c charmask * vc.vc_font.height) * width) }
  [FbCall.fb_imageblit image]

/-- The loop `while (count--)` of `fbcon_putcs` (fbcon.c:376-381): `n` is the
number of iterations still to run, `i` the index of the word `s` points at and
`image` the current value of the local `image`. -/
def fbcon_putcs_loop (vc : VcData) (charmask width : Int) (s : Nat → Int) :
    Nat → Nat → FbImage → List FbCall
  | 0, _, _ => []
  | n + 1, i, image =>
    let image1 : FbImage :=
      { image with
        data := u32 (u32 (band (u16 (s i)) charmask * vc.vc_font.height) * width) }
    FbCall.fb_imageblit image1 ::
      fbcon_putcs_loop vc charmask width s n (i + 1)
        { image1 with x := u32 (image1.x + vc.vc_font.width) }

/-- The function `fbcon_putcs` (fbcon.c:350-382).  The screen words are read
through the pointer `s`: `s i` is the word at `s[i]`.  `while (count--)` runs
until the 32-bit counter reaches zero, that is `count mod 2^32` times.  The
field `image.data` is unset before the loop; it is never handed out unset. -/
def fbcon_putcs (m : AttrMacros) (vc : VcData) (info : FbInfo)
    (s : Nat → Int) (count ypos xpos : Int) : List FbCall :=
  let charmask : Int := if vc.vc_font.charcount > 256 then 0x1ff else 0xff
  let width := u32 (vc.vc_font.width + 7) / 8
  let fg_color : Int :=
    if info.fix_visual = FB_VISUAL_PSEUDOCOLOR then
      (m.attr_fgcol vc (u16 (s 0)) : Int)
    else
      if info.var_bits_per_pixel > 16 then
        read_u32 info.big_endian info.pseudo_palette (m.attr_fgcol vc (u16 (s 0)))
      else
        read_u16 info.big_endian info.pseudo_palette (m.attr_fgcol vc (u16 (s 0)))
  let bg_color : Int :=
    if info.fix_visual = FB_VISUAL_PSEUDOCOLOR then
      (m.attr_bgcol vc (u16 (s 0)) : Int)
    else
      if info.var_bits_per_pixel > 16 then
        read_u32 info.big_endian info.pseudo_palette (m.attr_bgcol vc (u16 (s 0)))
      else
        read_u16 info.big_endian info.pseudo_palette (m.attr_bgcol vc (u16 (s 0)))
  let image : FbImage :=
    { x := u32 (u32 xpos * vc.vc_font.width)
      y := u32 (u32 ypos * vc.vc_font.height)
      width := vc.vc_font.width
      height := vc.vc_font.height
      fg_color := fg_color
      bg_color := bg_color
      depth := 1
      data := 0 }
  fbcon_putcs_loop vc charmask width s (u32 count).toNat 0 image

/-! ## Cursor controller -/

/-- Modelled from the spec: `CM_DRAW` of the absent `linux/console.h`. -/
def CM_DRAW : Int := 1

/-- Modelled from the spec: `CM_ERASE` of the absent `linux/console.h`. -/
def CM_ERASE : Int := 2

/-- Modelled from the spec: `CM_MOVE` of the absent `linux/console.h`. -/
def CM_MOVE : Int := 3

/-- Modelled from the spec: `CM_CHANGE` of the absent `linux/console.h`, the
change-shape request; a value distinct from the other three modes. -/
def CM_CHANGE : Int := 4

/-- Modelled from the spec: `FB_CUR_SETCUR` of the absent `linux/fb.h`. -/
def FB_CUR_SETCUR : Int := 0x01

/-- Modelled from the spec: `FB_CUR_SETALL` of the absent `linux/fb.h`. -/
def FB_CUR_SETALL : Int := 0x1F

/-- Modelled from the spec: the cursor shapes of the absent `linux/console.h`
(shape none). -/
def CUR_NONE : Int := 1

/-- Modelled from the spec: cursor shape underline. -/
def CUR_UNDERLINE : Int := 2

/-- Modelled from the spec: cursor shape lower-third. -/
def CUR_LOWER_THIRD : Int := 3

/-- Modelled from the spec: cursor shape lower-half. -/
def CUR_LOWER_HALF : Int := 4

/-- Modelled from the spec: cursor shape two-thirds. -/
def CUR_TWO_THIRDS : Int := 5

/-- Modelled from the spec: cursor shape full block. -/
def CUR_BLOCK : Int := 6

/-- Modelled from the spec: `CUR_HWMASK` of the absent `linux/console.h`, the
bits of `vc_cursor_type` that hold the shape. -/
def CUR_HWMASK : Int := 0x0f

/-- The `CM_CHANGE` case of `fbcon_cursor` (fbcon.c:421-448): the final values
of the locals `(top_scanline, bottom_scanline)`.  Division is C's, truncating
towards zero. -/
def fbcon_cursor_change (vc : VcData) : Int × Int :=
  let bottom_scanline := s32 vc.vc_font.height
  let bottom_scanline :=
    if bottom_scanline ≥ 10 then s32 (bottom_scanline - 1) else bottom_scanline
  let shape := band vc.vc_cursor_type CUR_HWMASK
  if shape = CUR_NONE then
    (bottom_scanline, bottom_scanline)
  else if shape = CUR_BLOCK then
    (0, s32 vc.vc_font.height)
  else if shape = CUR_TWO_THIRDS then
    (Int.tdiv bottom_scanline 3, bottom_scanline)
  else if shape = CUR_LOWER_THIRD then
    (Int.tdiv (s32 (bottom_scanline * 2)) 3, bottom_scanline)
  else if shape = CUR_LOWER_HALF then
    (Int.tdiv bottom_scanline 2, bottom_scanline)
  else
    (s32 (bottom_scanline - 2), bottom_scanline)

/-- What a call of `fbcon_cursor` leaves behind: the device record, the
backend calls issued, and the scanline band when the `CM_CHANGE` case ran. -/
structure CursorResult where
  info : FbInfo
  calls : List FbCall
  band : Option (Int × Int)

/-- The function `fbcon_cursor` (fbcon.c:384-450).  Line 395-396 is read as
`cursor.pos.x`, `cursor.pos.y` (the text has `cursor->pos.x`, `cursor->pox.y`
on the local struct).  The guard on line 397 tests `cursor.enable`, a field of
the local `cursor` that is never assigned: its value is indeterminate and is
the parameter `cursor_enable`. -/
def fbcon_cursor (vc : VcData) (info : FbInfo) (mode : Int)
    (cursor_enable : Int) : CursorResult :=
  let cursor_pos_x := u32 (u32 vc.vc_x * vc.vc_font.width)
  let cursor_pos_y := u32 (u32 vc.vc_y * vc.vc_font.height)
  if info.cursor.pos_x = cursor_pos_x ∧ info.cursor.pos_y = cursor_pos_y ∧
      (decide (mode = CM_ERASE) = decide (cursor_enable = 0)) then
    { info := info, calls := [], band := none }
  else if mode = CM_ERASE then
    if info.cursor.enable ≠ 0 then
      let cur : FbCursor := { info.cursor with enable := 0, set := FB_CUR_SETCUR }
      { info := { info with cursor := cur }, calls := [FbCall.fb_cursor cur], band := none }
    else
      { info := info, calls := [], band := none }
  else if mode = CM_MOVE ∨ mode = CM_DRAW then
    let cur : FbCursor :=
      { set := FB_CUR_SETALL
        enable := 1
        size_x := vc.vc_font.width
        size_y := vc.vc_font.height
        pos_x := u32 (u32 vc.vc_x * vc.vc_font.width)
        pos_y := u32 (u32 vc.vc_y * vc.vc_font.height) }
    { info := { info with cursor := cur }, calls := [FbCall.fb_cursor cur], band := none }
  else if mode = CM_CHANGE then
    { info := info, calls := [], band := some (fbcon_cursor_change vc) }
  else
    { info := info, calls := [], band := none }

/-! ## Palette -/

/-- One store `array[k] = v` into an allocated array of colour-map slots: the
array after the store.  A store past the end leaves the array as it is; the
loop records such an index in `PaletteState.outside`. -/
def cmap_store (a : List (Option Int)) (k : Nat) (v : Int) : List (Option Int) :=
  a.set k (some v)

/-- State of the loop of `fbcon_set_palette`: the three channel arrays and the
slot indices `k` whose stores fell outside the allocated arrays. -/
structure PaletteState where
  red : List (Option Int)
  green : List (Option Int)
  blue : List (Option Int)
  outside : List Nat
  deriving DecidableEq, Repr

/-- The value `(val<<8)|val` stored into a `u16` slot, for a `u8` `val`. -/
def replicate_byte (val : Int) : Int :=
  u16 (Int.ofNat (Nat.lor ((u8 val).toNat <<< 8) (u8 val).toNat))

/-- The loop of `fbcon_set_palette` (fbcon.c:565-573): `n` iterations remain,
`i` and `j` are the loop variables. -/
def fbcon_set_palette_loop (vc : VcData) (table : Nat → Int) (len : Nat) :
    Nat → Nat → Nat → PaletteState → PaletteState
  | 0, _, _, st => st
  | n + 1, i, j, st =>
    let k := (u8 (table i)).toNat
    let st1 : PaletteState :=
      { red := cmap_store st.red k (replicate_byte (vc.vc_palette j))
        green := cmap_store st.green k (replicate_byte (vc.vc_palette (j + 1)))
        blue := cmap_store st.blue k (replicate_byte (vc.vc_palette (j + 2)))
        outside := if k < len then st.outside else st.outside ++ [k] }
    fbcon_set_palette_loop vc table len n (i + 1) (j + 3) st1

/-- The function `fbcon_set_palette` (fbcon.c:544-575): the backend calls and
the return value.  `table i` is the byte `table[i]`; `kmalloc_red`,
`kmalloc_green`, `kmalloc_blue` say whether each allocation succeeds;
`set_cmap_ret` is what `fb_set_cmap` returns. -/
def fbcon_set_palette (vc : VcData) (info : FbInfo) (table : Nat → Int)
    (kmalloc_red kmalloc_green kmalloc_blue : Bool) (set_cmap_ret : Int) :
    List FbCall × Int :=
  let len : Int :=
    if info.var_bits_per_pixel ≤ 4 then u32 (2 ^ info.var_bits_per_pixel.toNat) else 16
  if ¬ kmalloc_red then ([], -1)
  else if ¬ kmalloc_green then ([], -1)
  else if ¬ kmalloc_blue then ([], -1)
  else
    let fresh : List (Option Int) := List.replicate len.toNat none
    let st := fbcon_set_palette_loop vc table len.toNat len.toNat 0 0
      { red := fresh, green := fresh, blue := fresh, outside := [] }
    ([FbCall.fb_set_cmap
        { start := 0, len := len, red := st.red, green := st.green, blue := st.blue } 1],
      set_cmap_ret)

/-! ## The specification's colour resolver, and sample consoles -/

/-- The Color Resolver as the specification states it (§4.2): on an indexed
surface the attribute index itself; otherwise the entry of the pseudo-palette
at that index, read as 32-bit values above 16 bits per pixel and as 16-bit
values at 16 bits per pixel or below. -/
def resolve (info : FbInfo) (idx : Nat) : Int :=
  if info.fix_visual = FB_VISUAL_PSEUDOCOLOR then (idx : Int)
  else if info.var_bits_per_pixel > 16 then
    read_u32 info.big_endian info.pseudo_palette idx
  else
    read_u16 info.big_endian info.pseudo_palette idx

/-- A console with an 8x16 font of 256 glyphs, cursor at the origin. -/
def vc_8x16 : VcData :=
  { vc_font := { width := 8, height := 16, charcount := 256 }
    vc_x := 0
    vc_y := 0
    vc_cursor_type := 2
    vc_palette := fun j => (j : Int)
    vc_cols := 80
    vc_rows := 25 }

/-- A 640x400 indexed-colour surface of depth 8 with the cursor record zeroed. -/
def info_640x400 : FbInfo :=
  { fix_visual := FB_VISUAL_PSEUDOCOLOR
    var_xres := 640
    var_yres := 400
    var_bits_per_pixel := 8
    var_accel_flags := 0
    pseudo_palette := fun _ => 0
    big_endian := false
    cursor := { set := 0, enable := 0, pos_x := 0, pos_y := 0, size_x := 0, size_y := 0 }
    has_fb_blank := false }

/-- Attribute macros of a 16-colour text console: foreground index in bits
8-11 of the character word, background index in bits 12-15, erase background 0. -/
def attr_16 : AttrMacros :=
  { attr_fgcol := fun _ c => ((u16 c).toNat / 256) % 16
    attr_bgcol := fun _ c => ((u16 c).toNat / 4096) % 16
    attr_bgcol_ec := fun _ => 0 }

/-- A 640x400 direct-colour surface of depth 32 whose pseudo-palette holds the
32-bit value `0x01010101 * i` in entry `i` (every byte of entry `i` is `i`). -/
def info_truecolor : FbInfo :=
  { info_640x400 with
    fix_visual := 2
    var_bits_per_pixel := 32
    pseudo_palette := fun a => a / 4 }

/-- The screen words `0x0741, 0x0742, ...`: letters from `A` on, attribute 7. -/
def words_from_A (i : Nat) : Int := 0x0741 + (i : Int)

/-- The 640x400 surface with the cursor shown at the origin, as a `CM_DRAW` on
the 8x16 console at grid position (0, 0) leaves it. -/
def info_cursor_shown : FbInfo :=
  { info_640x400 with
    cursor := { set := FB_CUR_SETALL, enable := 1, pos_x := 0, pos_y := 0,
                size_x := 8, size_y := 16 } }

/-- The bottom scanline of the cursor band as the specification states it
(§4.5): the cell height, decremented by one when the cell height is at least 10. -/
def spec_band_bottom (h : Int) : Int := if h ≥ 10 then h - 1 else h

/-- A depth-4 indexed surface. -/
def info_depth4 : FbInfo := { info_640x400 with var_bits_per_pixel := 4 }

/-- The index table that reverses the 16 slots: entry `i` is `15 - i`. -/
def table_reversed (i : Nat) : Int := 15 - (i : Int)

/-! ## Palette: stores outside the colour map -/

/-- The slot indices `k = table[i]` at which the stores of the loop of
`fbcon_set_palette` (fbcon.c:565-573) fall outside the `len` slots that the
function allocated on lines 551-562, in the order of the stores. -/
def fbcon_set_palette_outside (vc : VcData) (info : FbInfo) (table : Nat → Int) : List Nat :=
  let len : Int :=
    if info.var_bits_per_pixel ≤ 4 then u32 (2 ^ info.var_bits_per_pixel.toNat) else 16
  let fresh : List (Option Int) := List.replicate len.toNat none
  (fbcon_set_palette_loop vc table len.toNat len.toNat 0 0
    { red := fresh, green := fresh, blue := fresh, outside := [] }).outside

/-- The index table the console layer hands to `con_set_palette`: the
permutation of 0..15 that maps console colours to VGA colour numbers. -/
def color_table (i : Nat) : Int :=
  [0, 4, 2, 6, 1, 5, 3, 7, 8, 12, 10, 14, 9, 13, 11, 15].getD i 0

/-- A monochrome (depth 1) surface. -/
def info_depth1 : FbInfo := { info_640x400 with var_bits_per_pixel := 1 }

/-! ## Move, blank, font operations, resize -/

/-- The function `fbcon_bmove` (fbcon.c:473-487). -/
def fbcon_bmove (vc : VcData) (_info : FbInfo) (sy sx dy dx height width : Int) :
    List FbCall :=
  let sx := s32 (u32 (u32 sx * vc.vc_font.width))
  let sy := s32 (u32 (u32 sy * vc.vc_font.height))
  let dx := s32 (u32 (u32 dx * vc.vc_font.width))
  let dy := s32 (u32 (u32 dy * vc.vc_font.height))
  let height := s32 (u32 (u32 height * vc.vc_font.height))
  let width := s32 (u32 (u32 width * vc.vc_font.width))
  [FbCall.fb_copyarea sx sy width height dx dy]

/-- Modelled from the spec: `FB_ACCEL_NONE` of the absent `linux/fb.h`, the
value of `var.accel_flags` on a surface without acceleration. -/
def FB_ACCEL_NONE : Int := 0

/-- The function `fbcon_blank` (fbcon.c:489-519): the backend calls and the
return value.  The array `black` is 16 zeroed `u16`s, shared by the three
channels of the colour map. -/
def fbcon_blank (_vc : VcData) (info : FbInfo) (blank : Int) : List FbCall × Int :=
  if info.has_fb_blank then
    ([FbCall.fb_blank blank], 0)
  else if info.var_accel_flags ≠ FB_ACCEL_NONE then
    ([FbCall.fb_fillrect 0 0 info.var_xres info.var_yres 0 ROP_COPY], 0)
  else if (info.fix_visual = FB_VISUAL_PSEUDOCOLOR ∨
      info.fix_visual = FB_VISUAL_DIRECTCOLOR) ∧ blank ≠ 0 then
    let black : List (Option Int) := List.replicate 16 (some 0)
    ([FbCall.fb_set_cmap { start := 0, len := 16, red := black, green := black, blue := black }
        1], 0)
  else
    ([], 0)

/-- Modelled from the spec: `ENOSYS` of the absent `asm/errno.h`, the error
number of an operation that is not supported. -/
def ENOSYS : Int := 38

/-- Modelled from the spec: `KD_FONT_OP_SET` of the absent `linux/kd.h`. -/
def KD_FONT_OP_SET : Int := 0

/-- Modelled from the spec: `KD_FONT_OP_GET` of the absent `linux/kd.h`. -/
def KD_FONT_OP_GET : Int := 1

/-- Modelled from the spec: `KD_FONT_OP_SET_DEFAULT` of the absent `linux/kd.h`. -/
def KD_FONT_OP_SET_DEFAULT : Int := 2

/-- Modelled from the spec: `KD_FONT_OP_COPY` of the absent `linux/kd.h`. -/
def KD_FONT_OP_COPY : Int := 3

/-- The request `struct console_font_op` handed to `fbcon_font_op`. -/
structure ConsoleFontOp where
  op : Int
  flags : Int
  width : Int
  height : Int
  charcount : Int
  deriving DecidableEq, Repr

/-- What a console operation that may write the console leaves behind: the
console, the backend calls issued, and the return value. -/
structure OpResult where
  vc : VcData
  calls : List FbCall
  ret : Int

/-- The function `fbcon_font_op` (fbcon.c:521-537): the `switch` on `op->op`
has no case but `default` (the four cases are commented out). -/
def fbcon_font_op (vc : VcData) (_op : ConsoleFontOp) : OpResult :=
  { vc := vc, calls := [], ret := -ENOSYS }

/-- The function `fbcon_resize` (fbcon.c:539-542). -/
def fbcon_resize (vc : VcData) (_rows _cols : Int) : OpResult :=
  { vc := vc, calls := [], ret := 0 }

/-! ## Startup -/

/-- A font of the font store, `struct fbcon_font_desc` (declared in `font.h`,
not among the sources): the cell width and height are `int`s. -/
structure FbconFontDesc where
  width : Int
  height : Int
  deriving DecidableEq, Repr

/-- What `fbcon_startup` reads besides the console: the registered surfaces
(`registered_fb[i]` is `none` for a NULL slot), whether `fbops->owner` is
non-NULL, what `fbops->fb_open` returns when it is non-NULL, the boot option
`fontname`, the two lookups of the font store (`fbcon_find_font`,
`fbcon_get_default_font`, not among the sources), whether `fbops->fb_set_par`
is non-NULL, what `fb_alloc_cmap` returns and the colour map `info->cmap` it
leaves. -/
structure StartupEnv where
  num_registered_fb : Nat
  registered_fb : Nat → Option FbInfo
  owner : Bool
  fb_open : Option Int
  fontname : String
  fbcon_find_font : String → Option FbconFontDesc
  fbcon_get_default_font : Int → Int → Option FbconFontDesc
  has_fb_set_par : Bool
  fb_alloc_cmap : Int
  cmap : FbCmap

/-- The calls `fbcon_startup` makes on the surface's driver and on the colour
map library, in order. -/
inductive StartupStep where
  | mod_inc_use_count
  | fb_open
  | mod_dec_use_count
  | fb_set_par
  | fb_alloc_cmap
  | fb_set_cmap (cmap : FbCmap) (kspc : Int)
  deriving DecidableEq, Repr

/-- The fields of `struct vc_data` that only `fbcon_startup` and `fbcon_init`
write. -/
structure VcDerived where
  vc_scrollback : Int
  vc_can_do_color : Int
  vc_complement_mask : Int
  vc_hi_font_mask : Int
  deriving DecidableEq, Repr

/-- What `fbcon_startup` leaves behind: the returned description (`none` for
NULL), the console `vt->default_mode`, the hook `vt->data_hook` (`none` while
no surface is attached) and the driver calls made. -/
structure StartupResult where
  ret : Option String
  vc : VcData
  derived : VcDerived
  data_hook : Option FbInfo
  steps : List StartupStep

/-- The font selection of `fbcon_startup` (fbcon.c:220-221): the font named by
the boot option when there is one and the store has it, else the default font
for the resolution. -/
def fbcon_startup_font (env : StartupEnv) (info : FbInfo) : Option FbconFontDesc :=
  if env.fontname = "" then
    env.fbcon_get_default_font info.var_xres info.var_yres
  else
    match env.fbcon_find_font env.fontname with
    | some font => some font
    | none => env.fbcon_get_default_font info.var_xres info.var_yres

/-- The function `fbcon_startup` (fbcon.c:192-275).  The result is `none` when
the function does not return: the unsigned divisions on lines 257-258 are
undefined for a cell width or height of zero.  The writes to
`info->var.xoffset`, `yoffset` and `activate` and the local `logo` have no
counterpart in the model. -/
def fbcon_startup (env : StartupEnv) (vc : VcData) (derived : VcDerived)
    (data_hook : Option FbInfo) : Option StartupResult :=
  if env.num_registered_fb = 0 then
    some { ret := none, vc := vc, derived := derived, data_hook := data_hook, steps := [] }
  else
    match env.registered_fb (env.num_registered_fb - 1) with
    | none =>
      some { ret := none, vc := vc, derived := derived, data_hook := data_hook, steps := [] }
    | some info =>
      let steps1 : List StartupStep :=
        (if env.owner then [StartupStep.mod_inc_use_count] else []) ++
        (match env.fb_open with
          | some r =>
            StartupStep.fb_open ::
              (if r ≠ 0 ∧ env.owner then [StartupStep.mod_dec_use_count] else [])
          | none => [])
      match fbcon_startup_font env info with
      | none =>
        some { ret := none, vc := vc, derived := derived, data_hook := data_hook,
               steps := steps1 }
      | some font =>
        let vc1 : VcData :=
          { vc with
            vc_font := { width := u32 font.width, height := u32 font.height,
                         charcount := 256 } }
        let steps2 : List StartupStep :=
          steps1 ++ (if env.has_fb_set_par then [StartupStep.fb_set_par] else []) ++
            [StartupStep.fb_alloc_cmap]
        if env.fb_alloc_cmap ≠ 0 then
          some { ret := none, vc := vc1, derived := derived, data_hook := data_hook,
                 steps := steps2 }
        else if vc1.vc_font.width = 0 ∨ vc1.vc_font.height = 0 then
          none
        else
          let vc2 : VcData :=
            { vc1 with
              vc_cols := info.var_xres / vc1.vc_font.width
              vc_rows := info.var_yres / vc1.vc_font.height }
          let can_do_color : Int := if info.var_bits_per_pixel ≠ 1 then 1 else 0
          some
            { ret := some "frame buffer device"
              vc := vc2
              derived :=
                { vc_scrollback := 1
                  vc_can_do_color := can_do_color
                  vc_complement_mask := if can_do_color ≠ 0 then 0x7700 else 0x0800
                  vc_hi_font_mask := if vc2.vc_font.charcount = 256 then 0 else 0x100 }
              data_hook := some info
              steps := steps2 ++ [StartupStep.fb_set_cmap env.cmap 1] }

/-- One registered surface, the 640x400 one; no font named at boot; the font
store's default is the 8x16 font; the colour map allocation succeeds. -/
def env_640x400 : StartupEnv :=
  { num_registered_fb := 1
    registered_fb := fun i => if i = 0 then some info_640x400 else none
    owner := false
    fb_open := none
    fontname := ""
    fbcon_find_font := fun _ => none
    fbcon_get_default_font := fun _ _ => some { width := 8, height := 16 }
    has_fb_set_par := false
    fb_alloc_cmap := 0
    cmap := { start := 0, len := 0, red := [], green := [], blue := [] } }

/-- The fields `fbcon_startup` derives, before startup. -/
def derived_unset : VcDerived :=
  { vc_scrollback := 0, vc_can_do_color := 0, vc_complement_mask := 0, vc_hi_font_mask := 0 }

/-- A console before startup: no font, no geometry. -/
def vc_unset : VcData :=
  { vc_font := { width := 0, height := 0, charcount := 0 }
    vc_x := 0
    vc_y := 0
    vc_cursor_type := 2
    vc_palette := fun j => (j : Int)
    vc_cols := 0
    vc_rows := 0 }

/-! ## The specification's geometry translator -/

/-- The Geometry Translator as the specification states it (§4.1):
`cellToPixel(row, col) -> (x, y)`, the pixel origin of a cell for cells of
`fw x fh` pixels. -/
def cellToPixel (fw fh row col : Int) : Int × Int := (col * fw, row * fh)

/-- The inverse the specification names in §8: `pixelToCell`, the cell
`(row, col)` of a pixel, by integer division by the cell size. -/
def pixelToCell (fw fh x y : Int) : Int × Int := (y / fh, x / fw)

/-- Two screen words of different attributes: `A` in colour 7, `B` in colour 1. -/
def words_two_attributes (i : Nat) : Int := if i = 0 then 0x0741 else 0x0142

/-! ## XT keyboard (`drivers/input/xtkbd.c`) -/

/-- The constant `XTKBD_EMUL0` (xtkbd.c:41). -/
def XTKBD_EMUL0 : Nat := 0xe0

/-- The constant `XTKBD_EMUL1` (xtkbd.c:42). -/
def XTKBD_EMUL1 : Nat := 0xe1

/-- The constant `XTKBD_KEY` (xtkbd.c:43). -/
def XTKBD_KEY : Nat := 0x7f

/-- The constant `XTKBD_RELEASE` (xtkbd.c:44). -/
def XTKBD_RELEASE : Nat := 0x80

/-- The default table `xtkbd_keycode[256]` (xtkbd.c:46-55): 113 listed
entries, the rest zero. -/
def xtkbd_keycode (i : Nat) : Nat :=
  [  0,  1,  2,  3,  4,  5,  6,  7,  8,  9, 10, 11, 12, 13, 14, 15,
    16, 17, 18, 19, 20, 21, 22, 23, 24, 25, 26, 27, 28, 29, 30, 31,
    32, 33, 34, 35, 36, 37, 38, 39, 40, 41, 42, 43, 44, 45, 46, 47,
    48, 49, 50, 51, 52, 53, 54, 55, 56, 57, 58, 59, 60, 61, 62, 63,
    64, 65, 66, 67, 68, 69, 70, 71, 72, 73, 74, 75, 76, 77, 78, 79,
    80, 81, 82, 83,  0,  0,  0, 87, 88,  0,  0,  0,  0,  0,  0,  0,
     0,  0,  0,  0,  0, 87, 88,  0,  0,  0,  0,110,111,103,108,105,
   106 ].getD i 0

/-- What `xtkbd_interrupt` does with a byte: a key event handed to the input
layer (`value` 1 for pressed, 0 for released), or the warning it prints for a
scancode without a key. -/
inductive XtkbdCall where
  | input_report_key (code : Nat) (value : Nat)
  | printk_unknown_key (scancode : Nat) (released : Bool)
  deriving DecidableEq, Repr

/-- The function `xtkbd_interrupt` (xtkbd.c:65-82).  `keycode` is the table
`xtkbd->keycode` of the device (a copy of `xtkbd_keycode` made at connect),
`data` the byte received, an `unsigned char`. -/
def xtkbd_interrupt (keycode : Nat → Nat) (data : Nat) : List XtkbdCall :=
  if data = XTKBD_EMUL0 ∨ data = XTKBD_EMUL1 then
    []
  else if keycode (Nat.land data XTKBD_KEY) ≠ 0 then
    [XtkbdCall.input_report_key (keycode (Nat.land data XTKBD_KEY))
      (if Nat.land data XTKBD_RELEASE = 0 then 1 else 0)]
  else
    [XtkbdCall.printk_unknown_key (Nat.land data XTKBD_KEY)
      (decide (Nat.land data XTKBD_RELEASE ≠ 0))]

/-- The key events among the calls of `xtkbd_interrupt`, as `(key, value)`. -/
def key_events : List XtkbdCall → List (Nat × Nat)
  | [] => []
  | XtkbdCall.input_report_key code value :: rest => (code, value) :: key_events rest
  | XtkbdCall.printk_unknown_key _ _ :: rest => key_events rest

/-- A little-endian 640x400 direct-colour surface of depth 16 whose
pseudo-palette memory holds the byte `a + 1` at offset `a`, so that all bytes
of the first entries differ. -/
def info_highcolor : FbInfo :=
  { info_640x400 with
    fix_visual := 2
    var_bits_per_pixel := 16
    pseudo_palette := fun a => a + 1 }

/-- Two surfaces were registered and the second was taken away again: the
640x400 surface sits in slot 0, slot 1 is NULL and `num_registered_fb` is 2. -/
def env_null_slot : StartupEnv :=
  { env_640x400 with
    num_registered_fb := 2
    registered_fb := fun i => if i = 0 then some info_640x400 else none }

/-- The boot option names the font `VGA8x8`, which the font store has (cell
8x8); its default for any resolution is the 8x16 font. -/
def env_named_font : StartupEnv :=
  { env_640x400 with
    fontname := "VGA8x8"
    fbcon_find_font := fun name => if name = "VGA8x8" then some { width := 8, height := 8 }
      else none }

/-- The font store has no font at all. -/
def env_no_font : StartupEnv :=
  { env_640x400 with fbcon_get_default_font := fun _ _ => none }

/-- The colour map allocation fails (`fb_alloc_cmap` returns `-ENOMEM`). -/
def env_no_cmap : StartupEnv := { env_640x400 with fb_alloc_cmap := -12 }

/-! ## Machine arithmetic: basic facts -/

theorem s32_of_int_range {z : Int} (h : int_range z) : s32 z = z := by
  unfold int_range at h
  unfold s32
  omega

theorem u32_of_uint_range {z : Int} (h : uint_range z) : u32 z = z := by
  unfold uint_range at h
  unfold u32
  omega

theorem u32_u32 (z : Int) : u32 (u32 z) = u32 z := by
  unfold u32
  omega

theorem s32_u32 (z : Int) : s32 (u32 z) = s32 z := by
  unfold s32 u32
  omega

theorem s32_s32 (z : Int) : s32 (s32 z) = s32 z := by
  unfold s32
  omega

theorem u32_s32 (z : Int) : u32 (s32 z) = u32 z := by
  unfold s32 u32
  omega

theorem u32_mul_left (a b : Int) : u32 (u32 a * b) = u32 (a * b) := by
  unfold u32
  rw [Int.mul_emod, Int.emod_emod_of_dvd _ (dvd_refl _), ← Int.mul_emod]

theorem u32_mul_right (a b : Int) : u32 (a * u32 b) = u32 (a * b) := by
  rw [mul_comm, u32_mul_left, mul_comm]

theorem s32_mul_left (a b : Int) : s32 (s32 a * b) = s32 (a * b) := by
  rw [← s32_u32, ← u32_mul_left, u32_s32, u32_mul_left, s32_u32]

theorem s32_mul_right (a b : Int) : s32 (a * s32 b) = s32 (a * b) := by
  rw [mul_comm, s32_mul_left, mul_comm]

/-! ## Region operations -/

/-- The rectangle of `fbcon_clear` in the arithmetic of C `int`s. -/
theorem fbcon_clear_eq (m : AttrMacros) (vc : VcData) (info : FbInfo)
    (sy sx height width : Int) :
    fbcon_clear m vc info sy sx height width =
      [FbCall.fb_fillrect (s32 (sx * vc.vc_font.width)) (s32 (sy * vc.vc_font.height))
        (s32 (width * vc.vc_font.width)) (s32 ((height + 1) * vc.vc_font.height))
        (resolve info (m.attr_bgcol_ec vc)) ROP_COPY] := by
  simp only [fbcon_clear, resolve, s32_u32, u32_mul_left, s32_mul_left]

/-- C1: `fbcon_clear` issues exactly one `fb_fillrect`, with raster op COPY,
whose rectangle is `x = sx*fw`, `y = sy*fh`, `w = width*fw`,
`h = (height+1)*fh`: in the 32-bit arithmetic of C for every input, and as
exact integers whenever the four products fit an `int`.  For `height = 0` the
filled height is the cell height `fh`, one full row. -/
theorem fbcon_clear_fills_inclusive_rect (m : AttrMacros) (vc : VcData) (info : FbInfo)
    (sy sx height width : Int) :
    fbcon_clear m vc info sy sx height width =
        [FbCall.fb_fillrect (s32 (sx * vc.vc_font.width)) (s32 (sy * vc.vc_font.height))
          (s32 (width * vc.vc_font.width)) (s32 ((height + 1) * vc.vc_font.height))
          (resolve info (m.attr_bgcol_ec vc)) ROP_COPY] ∧
      (int_range (sx * vc.vc_font.width) → int_range (sy * vc.vc_font.height) →
        int_range (width * vc.vc_font.width) →
        int_range ((height + 1) * vc.vc_font.height) →
        fbcon_clear m vc info sy sx height width =
          [FbCall.fb_fillrect (sx * vc.vc_font.width) (sy * vc.vc_font.height)
            (width * vc.vc_font.width) ((height + 1) * vc.vc_font.height)
            (resolve info (m.attr_bgcol_ec vc)) ROP_COPY]) ∧
      (int_range vc.vc_font.height →
        fbcon_clear m vc info sy sx 0 width =
          [FbCall.fb_fillrect (s32 (sx * vc.vc_font.width)) (s32 (sy * vc.vc_font.height))
            (s32 (width * vc.vc_font.width)) vc.vc_font.height
            (resolve info (m.attr_bgcol_ec vc)) ROP_COPY]) := by
  refine ⟨fbcon_clear_eq m vc info sy sx height width, ?_, ?_⟩
  · intro hx hy hw hh
    rw [fbcon_clear_eq, s32_of_int_range hx, s32_of_int_range hy, s32_of_int_range hw,
      s32_of_int_range hh]
  · intro hh
    rw [fbcon_clear_eq]
    have h1 : ((0 : Int) + 1) * vc.vc_font.height = vc.vc_font.height := by ring
    rw [h1, s32_of_int_range hh]

/-- C1 at a concrete input: clearing zero extra rows of 80 columns on the
8x16 console fills 640x16 pixels. -/
theorem fbcon_clear_fills_inclusive_rect_witness :
    fbcon_clear attr_16 vc_8x16 info_640x400 2 0 0 80 =
      [FbCall.fb_fillrect 0 32 640 16 0 ROP_COPY] :=
  (fbcon_clear_fills_inclusive_rect attr_16 vc_8x16 info_640x400 2 0 0 80).2.1
    (by decide) (by decide) (by decide) (by decide)

/-- C2: on the 640x400 surface with the 8x16 font,
`fbcon_scroll_region(t=0, b=25, SM_UP, count=1)` issues one `fb_copyarea` from
y = 0 to y = -16 of height 16 (one row, moved above the surface), not the
copy from y = 16 to y = 0 of height 384 that scrolls the 25-row region. -/
theorem fbcon_scroll_region_full_screen_up :
    fbcon_scroll_region vc_8x16 info_640x400 0 25 SM_UP 1 =
        ([FbCall.fb_copyarea 0 0 640 16 0 (-16)], 0) ∧
      fbcon_scroll_region vc_8x16 info_640x400 0 25 SM_UP 1 ≠
        ([FbCall.fb_copyarea 0 16 640 384 0 0], 0) := by
  decide

/-- C3: for every `t`, `b`, `count`, `fbcon_scroll_region` issues exactly one
`fb_copyarea` with source `(0, t*fh)`, width the x-resolution, destination x 0
and destination y `t*fh - count*fh` for `SM_UP`, `t*fh + count*fh` for
`SM_DOWN` (32-bit unsigned arithmetic, the result read as a signed `int`); it
returns 0 for every input, whatever `dir` is. -/
theorem fbcon_scroll_region_single_copy (vc : VcData) (info : FbInfo)
    (t b dir count : Int) :
    fbcon_scroll_region vc info t b SM_UP count =
        ([FbCall.fb_copyarea 0 (u32 (t * vc.vc_font.height)) info.var_xres
            (u32 (count * vc.vc_font.height)) 0
            (s32 (t * vc.vc_font.height - count * vc.vc_font.height))], 0) ∧
      fbcon_scroll_region vc info t b SM_DOWN count =
        ([FbCall.fb_copyarea 0 (u32 (t * vc.vc_font.height)) info.var_xres
            (u32 (count * vc.vc_font.height)) 0
            (s32 (t * vc.vc_font.height + count * vc.vc_font.height))], 0) ∧
      (fbcon_scroll_region vc info t b dir count).2 = 0 ∧
      (fbcon_scroll_region vc info t b dir count).1.length = 1 := by
  have hsub : ∀ x y : Int, s32 (u32 (u32 x - u32 y)) = s32 (x - y) := by
    intro x y; unfold s32 u32; omega
  have hadd : ∀ x y : Int, s32 (u32 (u32 x + u32 y)) = s32 (x + y) := by
    intro x y; unfold s32 u32; omega
  refine ⟨?_, ?_, rfl, rfl⟩
  · simp only [fbcon_scroll_region, u32_mul_left, hsub, if_true]
  · have hne : ¬ (SM_DOWN = SM_UP) := by decide
    simp only [fbcon_scroll_region, u32_mul_left, hadd, if_true, if_neg hne]

/-! ## Glyph renderer -/

theorem band_0xff (c : Int) : band c 0xff = c % 256 := by
  unfold band u32
  have h : ((0xff : Int) % 4294967296).toNat = 2 ^ 8 - 1 := by decide
  rw [h]
  have := Nat.and_pow_two_sub_one_eq_mod (c % 4294967296).toNat 8
  show Int.ofNat ((c % 4294967296).toNat &&& (2 ^ 8 - 1)) = _
  rw [this]
  simp only [Int.ofNat_eq_coe]
  omega

theorem band_0x1ff (c : Int) : band c 0x1ff = c % 512 := by
  unfold band u32
  have h : ((0x1ff : Int) % 4294967296).toNat = 2 ^ 9 - 1 := by decide
  rw [h]
  have := Nat.and_pow_two_sub_one_eq_mod (c % 4294967296).toNat 9
  show Int.ofNat ((c % 4294967296).toNat &&& (2 ^ 9 - 1)) = _
  rw [this]
  simp only [Int.ofNat_eq_coe]
  omega

/-- The row stride `(width+7)>>3` is the number of bytes that hold `width`
bits, as long as `width + 7` does not wrap. -/
theorem stride_eq_ceil (fw : Int) (h : uint_range (fw + 7)) :
    u32 (fw + 7) / 8 = ⌈(fw : ℚ) / 8⌉ := by
  rw [u32_of_uint_range h]
  symm
  rw [Int.ceil_eq_iff]
  constructor
  · rw [lt_div_iff₀ (by norm_num)]
    have : ((fw + 7) / 8 - 1) * 8 < fw := by omega
    exact_mod_cast this
  · rw [div_le_iff₀ (by norm_num)]
    have : fw ≤ ((fw + 7) / 8) * 8 := by omega
    exact_mod_cast this

/-- The single blit of `fbcon_putc`, field by field. -/
theorem fbcon_putc_eq (m : AttrMacros) (vc : VcData) (info : FbInfo) (c ypos xpos : Int) :
    fbcon_putc m vc info c ypos xpos =
      [FbCall.fb_imageblit
        { x := u32 (xpos * vc.vc_font.width)
          y := u32 (ypos * vc.vc_font.height)
          width := vc.vc_font.width
          height := vc.vc_font.height
          fg_color := resolve info (m.attr_fgcol vc c)
          bg_color := resolve info (m.attr_bgcol vc c)
          depth := 1
          data := u32 (band c (if vc.vc_font.charcount ≤ 256 then 0xff else 0x1ff) *
            vc.vc_font.height * (u32 (vc.vc_font.width + 7) / 8)) }] := by
  have hmask : (if vc.vc_font.charcount > 256 then (0x1ff : Int) else 0xff) =
      (if vc.vc_font.charcount ≤ 256 then (0xff : Int) else 0x1ff) := by
    by_cases h : vc.vc_font.charcount ≤ 256
    · rw [if_pos h, if_neg (by omega)]
    · rw [if_neg h, if_pos (by omega)]
  simp only [fbcon_putc, resolve, u32_mul_left, hmask]

/-- C4: `fbcon_putc` issues one blit of depth 1 and size `fw x fh` whose
bitmap starts at byte offset `(c & mask) * fh * ceil(fw/8)` of the font buffer
(32-bit unsigned arithmetic; the exact integer when nothing wraps), with
`mask = 0xFF` for `charcount <= 256` and `0x1FF` otherwise; `c & mask` is `c`
modulo 256 or 512, so code 300 is glyph 44 of a 256-glyph font and glyph 300
of a 512-glyph font. -/
theorem fbcon_putc_blits_masked_glyph (m : AttrMacros) (vc : VcData) (info : FbInfo)
    (c ypos xpos : Int) :
    fbcon_putc m vc info c ypos xpos =
        [FbCall.fb_imageblit
          { x := u32 (xpos * vc.vc_font.width)
            y := u32 (ypos * vc.vc_font.height)
            width := vc.vc_font.width
            height := vc.vc_font.height
            fg_color := resolve info (m.attr_fgcol vc c)
            bg_color := resolve info (m.attr_bgcol vc c)
            depth := 1
            data := u32 (band c (if vc.vc_font.charcount ≤ 256 then 0xff else 0x1ff) *
              vc.vc_font.height * (u32 (vc.vc_font.width + 7) / 8)) }] ∧
      band c 0xff = c % 256 ∧ band c 0x1ff = c % 512 ∧
      band 300 0xff = 44 ∧ band 300 0x1ff = 300 ∧
      (uint_range (vc.vc_font.width + 7) →
        u32 (vc.vc_font.width + 7) / 8 = ⌈(vc.vc_font.width : ℚ) / 8⌉) ∧
      (uint_range (vc.vc_font.width + 7) →
        uint_range (band c (if vc.vc_font.charcount ≤ 256 then 0xff else 0x1ff) *
          vc.vc_font.height * ⌈(vc.vc_font.width : ℚ) / 8⌉) →
        fbcon_putc m vc info c ypos xpos =
          [FbCall.fb_imageblit
            { x := u32 (xpos * vc.vc_font.width)
              y := u32 (ypos * vc.vc_font.height)
              width := vc.vc_font.width
              height := vc.vc_font.height
              fg_color := resolve info (m.attr_fgcol vc c)
              bg_color := resolve info (m.attr_bgcol vc c)
              depth := 1
              data := band c (if vc.vc_font.charcount ≤ 256 then 0xff else 0x1ff) *
                vc.vc_font.height * ⌈(vc.vc_font.width : ℚ) / 8⌉ }]) := by
  refine ⟨fbcon_putc_eq m vc info c ypos xpos, band_0xff c, band_0x1ff c, by decide,
    by decide, stride_eq_ceil _, ?_⟩
  intro hw hoff
  rw [fbcon_putc_eq, stride_eq_ceil _ hw, u32_of_uint_range hoff]

/-- C4 at concrete inputs: with the 8x16 font of 256 glyphs, code 300 is
blitted from offset `44 * 16 * 1`. -/
theorem fbcon_putc_blits_masked_glyph_witness :
    fbcon_putc attr_16 vc_8x16 info_640x400 300 0 0 =
      [FbCall.fb_imageblit
        { x := 0, y := 0, width := 8, height := 16, fg_color := 1, bg_color := 0,
          depth := 1, data := 704 }] := by
  have h := (fbcon_putc_blits_masked_glyph attr_16 vc_8x16 info_640x400 300 0 0).2.2.2.2.2.2
    (by decide)
    (by
      have hc : ⌈((vc_8x16.vc_font.width : Int) : ℚ) / 8⌉ = 1 := by
        rw [Int.ceil_eq_iff]; simp only [vc_8x16]; norm_num
      rw [hc]; decide)
  have hc : ⌈((vc_8x16.vc_font.width : Int) : ℚ) / 8⌉ = 1 := by
    rw [Int.ceil_eq_iff]; simp only [vc_8x16]; norm_num
  rw [hc] at h
  rw [h]
  decide

/-- The blits of the loop of `fbcon_putcs`: the `k`-th one is `image` moved
right by `k` cells, with the glyph of word `i + k`. -/
theorem fbcon_putcs_loop_eq (vc : VcData) (charmask width : Int) (s : Nat → Int) :
    ∀ (n i : Nat) (image : FbImage), u32 image.x = image.x →
      fbcon_putcs_loop vc charmask width s n i image =
        (List.range n).map (fun (k : Nat) =>
          FbCall.fb_imageblit
            { image with
              x := u32 (image.x + (k : Int) * vc.vc_font.width)
              data := u32 (u32 (band (u16 (s (i + k))) charmask * vc.vc_font.height) *
                width) }) := by
  intro n
  induction n with
  | zero => intro i image _; rfl
  | succ n ih =>
    intro i image hx
    rw [List.range_succ_eq_map, List.map_cons, List.map_map]
    simp only [fbcon_putcs_loop]
    rw [ih (i + 1) _ (u32_u32 _)]
    congr 1
    · simp [hx]
    · apply List.map_congr_left
      intro k _
      simp only [Function.comp, Nat.succ_eq_add_one]
      have h1 : u32 (u32 (image.x + vc.vc_font.width) + (k : Int) * vc.vc_font.width) =
          u32 (image.x + ((k + 1 : Nat) : Int) * vc.vc_font.width) := by
        have h2 : ((k + 1 : Nat) : Int) * vc.vc_font.width =
            (k : Int) * vc.vc_font.width + vc.vc_font.width := by push_cast; ring
        rw [h2]
        generalize (k : Int) * vc.vc_font.width = q
        unfold u32
        omega
      have h3 : i + 1 + k = i + (k + 1) := by omega
      rw [h1, h3]

/-- The blits of `fbcon_putcs`, in the order they are issued. -/
theorem fbcon_putcs_eq (m : AttrMacros) (vc : VcData) (info : FbInfo) (s : Nat → Int)
    (count : Nat) (ypos xpos : Int) (hcount : (count : Int) < 2147483648) :
    fbcon_putcs m vc info s count ypos xpos =
      (List.range count).map (fun (i : Nat) =>
        FbCall.fb_imageblit
          { x := u32 ((xpos + (i : Int)) * vc.vc_font.width)
            y := u32 (ypos * vc.vc_font.height)
            width := vc.vc_font.width
            height := vc.vc_font.height
            fg_color := resolve info (m.attr_fgcol vc (u16 (s 0)))
            bg_color := resolve info (m.attr_bgcol vc (u16 (s 0)))
            depth := 1
            data := u32 (band (u16 (s i)) (if vc.vc_font.charcount ≤ 256 then 0xff else 0x1ff) *
              vc.vc_font.height * (u32 (vc.vc_font.width + 7) / 8)) }) := by
  have hmask : (if vc.vc_font.charcount > 256 then (0x1ff : Int) else 0xff) =
      (if vc.vc_font.charcount ≤ 256 then (0xff : Int) else 0x1ff) := by
    by_cases h : vc.vc_font.charcount ≤ 256
    · rw [if_pos h, if_neg (by omega)]
    · rw [if_neg h, if_pos (by omega)]
  have hn : (u32 (count : Int)).toNat = count := by
    unfold u32
    omega
  unfold fbcon_putcs
  simp only [hn, hmask]
  rw [fbcon_putcs_loop_eq _ _ _ _ _ _ _ (u32_u32 _)]
  apply List.map_congr_left
  intro k _
  have hx : u32 (u32 (xpos * vc.vc_font.width) + (k : Int) * vc.vc_font.width) =
      u32 ((xpos + (k : Int)) * vc.vc_font.width) := by
    rw [add_mul]
    generalize (k : Int) * vc.vc_font.width = q
    generalize xpos * vc.vc_font.width = r
    unfold u32
    omega
  simp only [resolve, u32_mul_left, hx, Nat.zero_add]

/-- C5: for every `count >= 0`, `fbcon_putcs` issues exactly `count` blits
(none for `count = 0`), left to right: the `i`-th is at `x = (xpos+i)*fw`,
`y = ypos*fh`, of size `fw x fh`, with glyph offset
`(s[i] & mask) * fh * ceil(fw/8)` (32-bit unsigned arithmetic; the exact
integers whenever nothing wraps). -/
theorem fbcon_putcs_blits_left_to_right (m : AttrMacros) (vc : VcData) (info : FbInfo)
    (s : Nat → Int) (count : Nat) (ypos xpos : Int) (hcount : (count : Int) < 2147483648) :
    fbcon_putcs m vc info s count ypos xpos =
        (List.range count).map (fun (i : Nat) =>
          FbCall.fb_imageblit
            { x := u32 ((xpos + (i : Int)) * vc.vc_font.width)
              y := u32 (ypos * vc.vc_font.height)
              width := vc.vc_font.width
              height := vc.vc_font.height
              fg_color := resolve info (m.attr_fgcol vc (u16 (s 0)))
              bg_color := resolve info (m.attr_bgcol vc (u16 (s 0)))
              depth := 1
              data := u32 (band (u16 (s i))
                  (if vc.vc_font.charcount ≤ 256 then 0xff else 0x1ff) *
                vc.vc_font.height * (u32 (vc.vc_font.width + 7) / 8)) }) ∧
      (fbcon_putcs m vc info s count ypos xpos).length = count ∧
      fbcon_putcs m vc info s 0 ypos xpos = [] ∧
      (∀ i : Nat, i < count →
        uint_range ((xpos + (i : Int)) * vc.vc_font.width) →
        uint_range (ypos * vc.vc_font.height) →
        uint_range (vc.vc_font.width + 7) →
        uint_range (band (u16 (s i)) (if vc.vc_font.charcount ≤ 256 then 0xff else 0x1ff) *
          vc.vc_font.height * ⌈(vc.vc_font.width : ℚ) / 8⌉) →
        (fbcon_putcs m vc info s count ypos xpos)[i]? =
          some (FbCall.fb_imageblit
            { x := (xpos + (i : Int)) * vc.vc_font.width
              y := ypos * vc.vc_font.height
              width := vc.vc_font.width
              height := vc.vc_font.height
              fg_color := resolve info (m.attr_fgcol vc (u16 (s 0)))
              bg_color := resolve info (m.attr_bgcol vc (u16 (s 0)))
              depth := 1
              data := band (u16 (s i)) (if vc.vc_font.charcount ≤ 256 then 0xff else 0x1ff) *
                vc.vc_font.height * ⌈(vc.vc_font.width : ℚ) / 8⌉ })) := by
  refine ⟨fbcon_putcs_eq m vc info s count ypos xpos hcount, ?_, rfl, ?_⟩
  · rw [fbcon_putcs_eq m vc info s count ypos xpos hcount, List.length_map, List.length_range]
  · intro i hi hx hy hw hoff
    rw [fbcon_putcs_eq m vc info s count ypos xpos hcount, List.getElem?_map,
      List.getElem?_range hi]
    simp only [Option.map_some']
    rw [stride_eq_ceil _ hw, u32_of_uint_range hoff, u32_of_uint_range hx,
      u32_of_uint_range hy]

/-- C5 at a concrete input: three words at column 2, row 1 of the 8x16
console give three blits at x = 16, 24, 32, glyphs `A`, `B`, `C`. -/
theorem fbcon_putcs_blits_left_to_right_witness :
    fbcon_putcs attr_16 vc_8x16 info_640x400 words_from_A (3 : Nat) 1 2 =
      [FbCall.fb_imageblit
        { x := 16, y := 16, width := 8, height := 16, fg_color := 7, bg_color := 0,
          depth := 1, data := 65 * 16 },
       FbCall.fb_imageblit
        { x := 24, y := 16, width := 8, height := 16, fg_color := 7, bg_color := 0,
          depth := 1, data := 66 * 16 },
       FbCall.fb_imageblit
        { x := 32, y := 16, width := 8, height := 16, fg_color := 7, bg_color := 0,
          depth := 1, data := 67 * 16 }] := by
  rw [(fbcon_putcs_blits_left_to_right attr_16 vc_8x16 info_640x400 words_from_A 3 1 2
    (by decide)).1]
  decide

/-! ## Colour resolver -/

/-- Element `i` of the pseudo-palette read through a `u16 *`: the two bytes at
offsets `2i` and `2i+1`, in the byte order of the machine; a 16-bit value. -/
theorem read_u16_bytes (be : Bool) (mem : Nat → Nat) (i : Nat) :
    read_u16 be mem i =
        (if be = true then
          256 * ((mem (2 * i) % 256 : Nat) : Int) + ((mem (2 * i + 1) % 256 : Nat) : Int)
        else
          ((mem (2 * i) % 256 : Nat) : Int) + 256 * ((mem (2 * i + 1) % 256 : Nat) : Int)) ∧
      0 ≤ read_u16 be mem i ∧ read_u16 be mem i < 65536 := by
  unfold read_u16
  cases be <;> simp only [Bool.false_eq_true, if_false, if_true] <;> omega

/-- Element `i` of the pseudo-palette read through a `u32 *`: the four bytes at
offsets `4i .. 4i+3`, in the byte order of the machine; a 32-bit value. -/
theorem read_u32_bytes (be : Bool) (mem : Nat → Nat) (i : Nat) :
    read_u32 be mem i =
        (if be = true then
          16777216 * ((mem (4 * i) % 256 : Nat) : Int) +
            65536 * ((mem (4 * i + 1) % 256 : Nat) : Int) +
            256 * ((mem (4 * i + 2) % 256 : Nat) : Int) + ((mem (4 * i + 3) % 256 : Nat) : Int)
        else
          ((mem (4 * i) % 256 : Nat) : Int) + 256 * ((mem (4 * i + 1) % 256 : Nat) : Int) +
            65536 * ((mem (4 * i + 2) % 256 : Nat) : Int) +
            16777216 * ((mem (4 * i + 3) % 256 : Nat) : Int)) ∧
      0 ≤ read_u32 be mem i ∧ read_u32 be mem i < 4294967296 := by
  unfold read_u32
  cases be <;> simp only [Bool.false_eq_true, if_false, if_true] <;> omega

/-- C6: the colour `fbcon_clear` and `fbcon_putc` hand to the backend is the
attribute index resolved on the surface as it is at the call: on an indexed
(pseudocolor) surface the index itself; on any other surface the entry of the
pseudo-palette at that index, read as 32-bit values when depth > 16 (the four
bytes at offsets `4*idx .. 4*idx+3` of the pseudo-palette memory) and as
16-bit values when depth <= 16 (the two bytes at offsets `2*idx`, `2*idx+1`),
in the byte order of the machine.  A draw made after the pseudo-palette has
been replaced by `p` reads its colours from the bytes of `p`, at either depth,
in `fbcon_putc` and in `fbcon_clear`. -/
theorem colours_resolved_at_each_call (m : AttrMacros) (vc : VcData) (info : FbInfo)
    (sy sx height width c ypos xpos : Int) (idx : Nat) (p : Nat → Nat) :
    (∃ x y w h : Int, fbcon_clear m vc info sy sx height width =
        [FbCall.fb_fillrect x y w h (resolve info (m.attr_bgcol_ec vc)) ROP_COPY]) ∧
      (∃ image : FbImage, fbcon_putc m vc info c ypos xpos = [FbCall.fb_imageblit image] ∧
        image.fg_color = resolve info (m.attr_fgcol vc c) ∧
        image.bg_color = resolve info (m.attr_bgcol vc c)) ∧
      (info.fix_visual = FB_VISUAL_PSEUDOCOLOR → resolve info idx = (idx : Int)) ∧
      (info.fix_visual ≠ FB_VISUAL_PSEUDOCOLOR → info.var_bits_per_pixel > 16 →
        resolve info idx = read_u32 info.big_endian info.pseudo_palette idx) ∧
      (info.fix_visual ≠ FB_VISUAL_PSEUDOCOLOR → info.var_bits_per_pixel ≤ 16 →
        resolve info idx = read_u16 info.big_endian info.pseudo_palette idx) ∧
      (info.fix_visual ≠ FB_VISUAL_PSEUDOCOLOR → info.var_bits_per_pixel > 16 →
        ∃ image : FbImage,
          fbcon_putc m vc { info with pseudo_palette := p } c ypos xpos =
            [FbCall.fb_imageblit image] ∧
          image.fg_color = read_u32 info.big_endian p (m.attr_fgcol vc c) ∧
          image.bg_color = read_u32 info.big_endian p (m.attr_bgcol vc c)) ∧
      (info.fix_visual ≠ FB_VISUAL_PSEUDOCOLOR → info.var_bits_per_pixel ≤ 16 →
        ∃ image : FbImage,
          fbcon_putc m vc { info with pseudo_palette := p } c ypos xpos =
            [FbCall.fb_imageblit image] ∧
          image.fg_color = read_u16 info.big_endian p (m.attr_fgcol vc c) ∧
          image.bg_color = read_u16 info.big_endian p (m.attr_bgcol vc c)) ∧
      (info.fix_visual ≠ FB_VISUAL_PSEUDOCOLOR → info.var_bits_per_pixel > 16 →
        ∃ x y w h : Int,
          fbcon_clear m vc { info with pseudo_palette := p } sy sx height width =
            [FbCall.fb_fillrect x y w h (read_u32 info.big_endian p (m.attr_bgcol_ec vc))
              ROP_COPY]) ∧
      (info.fix_visual ≠ FB_VISUAL_PSEUDOCOLOR → info.var_bits_per_pixel ≤ 16 →
        ∃ x y w h : Int,
          fbcon_clear m vc { info with pseudo_palette := p } sy sx height width =
            [FbCall.fb_fillrect x y w h (read_u16 info.big_endian p (m.attr_bgcol_ec vc))
              ROP_COPY]) ∧
      (info.fix_visual = FB_VISUAL_PSEUDOCOLOR →
        (∃ x y w h : Int,
          fbcon_clear m vc { info with pseudo_palette := p } sy sx height width =
            [FbCall.fb_fillrect x y w h (m.attr_bgcol_ec vc : Int) ROP_COPY]) ∧
        ∃ image : FbImage,
          fbcon_putc m vc { info with pseudo_palette := p } c ypos xpos =
            [FbCall.fb_imageblit image] ∧
          image.fg_color = (m.attr_fgcol vc c : Int) ∧
          image.bg_color = (m.attr_bgcol vc c : Int)) ∧
      (read_u16 info.big_endian p idx =
        (if info.big_endian = true then
          256 * ((p (2 * idx) % 256 : Nat) : Int) + ((p (2 * idx + 1) % 256 : Nat) : Int)
        else
          ((p (2 * idx) % 256 : Nat) : Int) + 256 * ((p (2 * idx + 1) % 256 : Nat) : Int))) ∧
      (read_u32 info.big_endian p idx =
        (if info.big_endian = true then
          16777216 * ((p (4 * idx) % 256 : Nat) : Int) +
            65536 * ((p (4 * idx + 1) % 256 : Nat) : Int) +
            256 * ((p (4 * idx + 2) % 256 : Nat) : Int) + ((p (4 * idx + 3) % 256 : Nat) : Int)
        else
          ((p (4 * idx) % 256 : Nat) : Int) + 256 * ((p (4 * idx + 1) % 256 : Nat) : Int) +
            65536 * ((p (4 * idx + 2) % 256 : Nat) : Int) +
            16777216 * ((p (4 * idx + 3) % 256 : Nat) : Int))) ∧
      (0 ≤ read_u16 info.big_endian p idx ∧ read_u16 info.big_endian p idx < 65536) ∧
      (0 ≤ read_u32 info.big_endian p idx ∧ read_u32 info.big_endian p idx < 4294967296) := by
  refine ⟨⟨_, _, _, _, fbcon_clear_eq m vc info sy sx height width⟩,
    ⟨_, fbcon_putc_eq m vc info c ypos xpos, rfl, rfl⟩, ?_, ?_, ?_, ?_, ?_, ?_, ?_, ?_,
    (read_u16_bytes _ p idx).1, (read_u32_bytes _ p idx).1, (read_u16_bytes _ p idx).2,
    (read_u32_bytes _ p idx).2⟩
  · intro hv
    simp only [resolve, if_pos hv]
  · intro hv hd
    simp only [resolve, if_neg hv, if_pos hd]
  · intro hv hd
    have hd2 : ¬ info.var_bits_per_pixel > 16 := by omega
    simp only [resolve, if_neg hv, if_neg hd2]
  · intro hv hd
    refine ⟨_, fbcon_putc_eq m vc _ c ypos xpos, ?_, ?_⟩ <;>
      simp only [resolve, if_neg hv, if_pos hd]
  · intro hv hd
    have hd2 : ¬ info.var_bits_per_pixel > 16 := by omega
    refine ⟨_, fbcon_putc_eq m vc _ c ypos xpos, ?_, ?_⟩ <;>
      simp only [resolve, if_neg hv, if_neg hd2]
  · intro hv hd
    have hc : resolve { info with pseudo_palette := p } (m.attr_bgcol_ec vc) =
        read_u32 info.big_endian p (m.attr_bgcol_ec vc) := by
      simp only [resolve, if_neg hv, if_pos hd]
    rw [← hc]
    exact ⟨_, _, _, _, fbcon_clear_eq m vc _ sy sx height width⟩
  · intro hv hd
    have hd2 : ¬ info.var_bits_per_pixel > 16 := by omega
    have hc : resolve { info with pseudo_palette := p } (m.attr_bgcol_ec vc) =
        read_u16 info.big_endian p (m.attr_bgcol_ec vc) := by
      simp only [resolve, if_neg hv, if_neg hd2]
    rw [← hc]
    exact ⟨_, _, _, _, fbcon_clear_eq m vc _ sy sx height width⟩
  · intro hv
    constructor
    · have hc : resolve { info with pseudo_palette := p } (m.attr_bgcol_ec vc) =
          (m.attr_bgcol_ec vc : Int) := by
        simp only [resolve, if_pos hv]
      rw [← hc]
      exact ⟨_, _, _, _, fbcon_clear_eq m vc _ sy sx height width⟩
    · refine ⟨_, fbcon_putc_eq m vc _ c ypos xpos, ?_, ?_⟩ <;>
        simp only [resolve, if_pos hv]

/-- C6 at concrete inputs.  Depth 32: entry 7 of the surface whose entry `i` is
`0x01010101 * i` is `0x07070707`, and once the pseudo-palette bytes are all
`0xff` a glyph of attribute 7 is drawn in `0xffffffff`.  Depth 16, bytes
`a + 1` at offset `a`, little-endian: the glyph `0x0741` (foreground 7,
background 0) is drawn in `15 + 256*16` on `1 + 256*2`, entries 7 and 0 of
the 16-bit view; once the pseudo-palette holds the bytes `2a` the same draw
uses `28 + 256*30` on `0 + 256*2`, and `fbcon_clear` fills with `0 + 256*2`. -/
theorem colours_resolved_at_each_call_witness :
    resolve info_truecolor 7 = 0x07070707 ∧
      (∃ image : FbImage,
        fbcon_putc attr_16 vc_8x16 { info_truecolor with pseudo_palette := fun _ => 255 }
          0x0741 0 0 = [FbCall.fb_imageblit image] ∧
        image.fg_color = 0xffffffff ∧ image.bg_color = 0xffffffff) ∧
      (∃ image : FbImage,
        fbcon_putc attr_16 vc_8x16 info_highcolor 0x0741 0 0 = [FbCall.fb_imageblit image] ∧
        image.fg_color = 15 + 256 * 16 ∧ image.bg_color = 1 + 256 * 2) ∧
      (∃ image : FbImage,
        fbcon_putc attr_16 vc_8x16 { info_highcolor with pseudo_palette := fun a => 2 * a }
          0x0741 0 0 = [FbCall.fb_imageblit image] ∧
        image.fg_color = 28 + 256 * 30 ∧ image.bg_color = 0 + 256 * 2) ∧
      (∃ x y w h : Int,
        fbcon_clear attr_16 vc_8x16 { info_highcolor with pseudo_palette := fun a => 2 * a }
          0 0 0 80 = [FbCall.fb_fillrect x y w h (0 + 256 * 2) ROP_COPY]) ∧
      (∃ image : FbImage,
        fbcon_putc attr_16 vc_8x16
          { info_truecolor with pseudo_palette := fun a => a + 1 } 0x0741 0 0 =
            [FbCall.fb_imageblit image] ∧
        image.fg_color = 29 + 256 * 30 + 65536 * 31 + 16777216 * 32 ∧
        image.bg_color = 1 + 256 * 2 + 65536 * 3 + 16777216 * 4) := by
  have h := colours_resolved_at_each_call attr_16 vc_8x16 info_truecolor 0 0 0 0 0x0741 0 0 7
    (fun _ => 255)
  have h32 := colours_resolved_at_each_call attr_16 vc_8x16 info_truecolor 0 0 0 0 0x0741 0 0 7
    (fun a => a + 1)
  have h16 := colours_resolved_at_each_call attr_16 vc_8x16 info_highcolor 0 0 0 80 0x0741 0 0 7
    info_highcolor.pseudo_palette
  have h16p := colours_resolved_at_each_call attr_16 vc_8x16 info_highcolor 0 0 0 80 0x0741 0 0
    7 (fun a => 2 * a)
  refine ⟨?_, ?_, ?_, ?_, ?_, ?_⟩
  · rw [h.2.2.2.1 (by decide) (by decide)]
    decide
  · obtain ⟨image, h1, h2, h3⟩ := h.2.2.2.2.2.1 (by decide) (by decide)
    refine ⟨image, h1, ?_, ?_⟩
    · rw [h2]; decide
    · rw [h3]; decide
  · obtain ⟨image, h1, h2, h3⟩ := h16.2.2.2.2.2.2.1 (by decide) (by decide)
    refine ⟨image, h1, ?_, ?_⟩
    · rw [h2]; decide
    · rw [h3]; decide
  · obtain ⟨image, h1, h2, h3⟩ := h16p.2.2.2.2.2.2.1 (by decide) (by decide)
    refine ⟨image, h1, ?_, ?_⟩
    · rw [h2]; decide
    · rw [h3]; decide
  · obtain ⟨x, y, w, hh, h1⟩ := h16p.2.2.2.2.2.2.2.2.1 (by decide) (by decide)
    have hc : read_u16 info_highcolor.big_endian (fun a => 2 * a)
        (attr_16.attr_bgcol_ec vc_8x16) = 0 + 256 * 2 := by decide
    rw [hc] at h1
    exact ⟨x, y, w, hh, h1⟩
  · obtain ⟨image, h1, h2, h3⟩ := h32.2.2.2.2.2.1 (by decide) (by decide)
    refine ⟨image, h1, ?_, ?_⟩
    · rw [h2]; decide
    · rw [h3]; decide

/-! ## Cursor controller -/

/-- C7: two consecutive `CM_DRAW` calls at grid position (0, 0) of the 8x16
console, the unassigned local `cursor.enable` reading 0 in both: the second
call finds position and enabled state as the first left them and still issues
a second `fb_cursor` call. -/
theorem fbcon_cursor_draw_twice_redraws :
    (fbcon_cursor vc_8x16 info_640x400 CM_DRAW 0).calls =
        [FbCall.fb_cursor info_cursor_shown.cursor] ∧
      (fbcon_cursor vc_8x16 info_640x400 CM_DRAW 0).info.cursor = info_cursor_shown.cursor ∧
      (fbcon_cursor vc_8x16 (fbcon_cursor vc_8x16 info_640x400 CM_DRAW 0).info CM_DRAW 0).calls =
        [FbCall.fb_cursor info_cursor_shown.cursor] := by
  decide

/-- C8: `CM_ERASE` on the 8x16 console whose cursor is shown (enabled) at the
current grid position, the unassigned local `cursor.enable` reading 0: the
call returns at the flicker guard, issues no backend call and leaves the
cursor enabled. -/
theorem fbcon_cursor_erase_skipped :
    (fbcon_cursor vc_8x16 info_cursor_shown CM_ERASE 0).calls = [] ∧
      (fbcon_cursor vc_8x16 info_cursor_shown CM_ERASE 0).info.cursor.enable = 1 ∧
      info_cursor_shown.cursor.enable = 1 := by
  decide

/-- After any `CM_DRAW` call the stored position is the pixel position of the
grid position. -/
theorem fbcon_cursor_draw_pos (vc : VcData) (info : FbInfo) (g : Int) :
    (fbcon_cursor vc info CM_DRAW g).info.cursor.pos_x = u32 (u32 vc.vc_x * vc.vc_font.width) ∧
      (fbcon_cursor vc info CM_DRAW g).info.cursor.pos_y =
        u32 (u32 vc.vc_y * vc.vc_font.height) := by
  have e1 : CM_DRAW ≠ CM_ERASE := by decide
  unfold fbcon_cursor
  simp only [if_neg e1, or_true, if_true]
  split
  · next h => exact ⟨h.1, h.2.1⟩
  · exact ⟨rfl, rfl⟩

/-- Whether a `CM_DRAW` that follows a `CM_DRAW` at the same grid position
reaches the backend is decided by the unassigned local `cursor.enable` alone:
the call is skipped exactly when that value is non-zero. -/
theorem fbcon_cursor_second_draw (vc : VcData) (info : FbInfo) (g1 g2 : Int) :
    (fbcon_cursor vc (fbcon_cursor vc info CM_DRAW g1).info CM_DRAW g2).calls = [] ↔
      g2 ≠ 0 := by
  obtain ⟨hx, hy⟩ := fbcon_cursor_draw_pos vc info g1
  have e1 : CM_DRAW ≠ CM_ERASE := by decide
  generalize (fbcon_cursor vc info CM_DRAW g1).info = info1 at hx hy
  unfold fbcon_cursor
  by_cases hg : g2 = 0
  · simp [hx, hy, hg, e1]
  · simp [hx, hy, hg, e1]

/-- Whether `CM_ERASE` of a cursor shown at the current grid position reaches
the backend is decided by the unassigned local `cursor.enable` alone: the
cursor is erased exactly when that value is non-zero. -/
theorem fbcon_cursor_erase_shown (vc : VcData) (info : FbInfo) (g : Int)
    (hx : info.cursor.pos_x = u32 (u32 vc.vc_x * vc.vc_font.width))
    (hy : info.cursor.pos_y = u32 (u32 vc.vc_y * vc.vc_font.height))
    (he : info.cursor.enable ≠ 0) :
    (g ≠ 0 →
        (fbcon_cursor vc info CM_ERASE g).calls =
          [FbCall.fb_cursor { info.cursor with enable := 0, set := FB_CUR_SETCUR }] ∧
        (fbcon_cursor vc info CM_ERASE g).info.cursor =
          { info.cursor with enable := 0, set := FB_CUR_SETCUR }) ∧
      (g = 0 →
        (fbcon_cursor vc info CM_ERASE g).calls = [] ∧
        (fbcon_cursor vc info CM_ERASE g).info.cursor = info.cursor) := by
  constructor
  · intro hg
    unfold fbcon_cursor
    simp [hx, hy, hg, he]
  · intro hg
    unfold fbcon_cursor
    simp [hx, hy, hg]

/-- C9: the scanline band `(top, bottom)` of the `CM_CHANGE` case for a cell
height `h` (a height that an `int` holds), with `b = h - 1` when `h >= 10` and
`b = h` otherwise: `(b, b)` for shape none, `(0, h)` for block, `(b/3, b)` for
two-thirds, `((2*b)/3, b)` for lower-third (as long as `2*b` fits an `int`),
`(b/2, b)` for lower-half, `(b - 2, b)` for underline and every other shape.
A `CM_CHANGE` call computes this band unless it returns at the flicker guard;
it issues no backend call and leaves the device record alone. -/
theorem fbcon_cursor_change_band (vc : VcData) (info : FbInfo) (cursor_enable : Int)
    (h0 : 0 ≤ vc.vc_font.height) (h1 : vc.vc_font.height < 2147483648) :
    (band vc.vc_cursor_type CUR_HWMASK = CUR_NONE →
        fbcon_cursor_change vc =
          (spec_band_bottom vc.vc_font.height, spec_band_bottom vc.vc_font.height)) ∧
      (band vc.vc_cursor_type CUR_HWMASK = CUR_BLOCK →
        fbcon_cursor_change vc = (0, vc.vc_font.height)) ∧
      (band vc.vc_cursor_type CUR_HWMASK = CUR_TWO_THIRDS →
        fbcon_cursor_change vc =
          (spec_band_bottom vc.vc_font.height / 3, spec_band_bottom vc.vc_font.height)) ∧
      (band vc.vc_cursor_type CUR_HWMASK = CUR_LOWER_THIRD →
        2 * spec_band_bottom vc.vc_font.height < 2147483648 →
        fbcon_cursor_change vc =
          ((2 * spec_band_bottom vc.vc_font.height) / 3, spec_band_bottom vc.vc_font.height)) ∧
      (band vc.vc_cursor_type CUR_HWMASK = CUR_LOWER_HALF →
        fbcon_cursor_change vc =
          (spec_band_bottom vc.vc_font.height / 2, spec_band_bottom vc.vc_font.height)) ∧
      (band vc.vc_cursor_type CUR_HWMASK ≠ CUR_NONE →
        band vc.vc_cursor_type CUR_HWMASK ≠ CUR_BLOCK →
        band vc.vc_cursor_type CUR_HWMASK ≠ CUR_TWO_THIRDS →
        band vc.vc_cursor_type CUR_HWMASK ≠ CUR_LOWER_THIRD →
        band vc.vc_cursor_type CUR_HWMASK ≠ CUR_LOWER_HALF →
        fbcon_cursor_change vc =
          (spec_band_bottom vc.vc_font.height - 2, spec_band_bottom vc.vc_font.height)) ∧
      (fbcon_cursor vc info CM_CHANGE cursor_enable).band =
        (if info.cursor.pos_x = u32 (vc.vc_x * vc.vc_font.width) ∧
            info.cursor.pos_y = u32 (vc.vc_y * vc.vc_font.height) ∧ cursor_enable ≠ 0
          then none else some (fbcon_cursor_change vc)) ∧
      (fbcon_cursor vc info CM_CHANGE cursor_enable).calls = [] ∧
      (fbcon_cursor vc info CM_CHANGE cursor_enable).info.cursor = info.cursor := by
  have hs : s32 vc.vc_font.height = vc.vc_font.height := s32_of_int_range ⟨by omega, h1⟩
  have hb : (if s32 vc.vc_font.height ≥ 10 then s32 (s32 vc.vc_font.height - 1)
      else s32 vc.vc_font.height) = spec_band_bottom vc.vc_font.height := by
    rw [hs]
    unfold spec_band_bottom
    by_cases h : vc.vc_font.height ≥ 10
    · rw [if_pos h, if_pos h]
      exact s32_of_int_range ⟨by omega, by omega⟩
    · rw [if_neg h, if_neg h]
  have hb0 : 0 ≤ spec_band_bottom vc.vc_font.height := by
    unfold spec_band_bottom; split <;> omega
  have hb1 : spec_band_bottom vc.vc_font.height < 2147483648 := by
    unfold spec_band_bottom; split <;> omega
  have c1 : CUR_BLOCK ≠ CUR_NONE := by decide
  have c2 : CUR_TWO_THIRDS ≠ CUR_NONE := by decide
  have c3 : CUR_TWO_THIRDS ≠ CUR_BLOCK := by decide
  have c4 : CUR_LOWER_THIRD ≠ CUR_NONE := by decide
  have c5 : CUR_LOWER_THIRD ≠ CUR_BLOCK := by decide
  have c6 : CUR_LOWER_THIRD ≠ CUR_TWO_THIRDS := by decide
  have c7 : CUR_LOWER_HALF ≠ CUR_NONE := by decide
  have c8 : CUR_LOWER_HALF ≠ CUR_BLOCK := by decide
  have c9 : CUR_LOWER_HALF ≠ CUR_TWO_THIRDS := by decide
  have c10 : CUR_LOWER_HALF ≠ CUR_LOWER_THIRD := by decide
  refine ⟨?_, ?_, ?_, ?_, ?_, ?_, ?_, ?_, ?_⟩
  · intro hsh
    simp only [fbcon_cursor_change, hb, hsh, if_true]
  · intro hsh
    simp only [fbcon_cursor_change, hb, hsh, hs, if_true, if_neg c1]
  · intro hsh
    simp only [fbcon_cursor_change, hb, hsh, if_true, if_neg c2, if_neg c3]
    rw [Int.tdiv_eq_ediv hb0 (by norm_num)]
  · intro hsh h2
    simp only [fbcon_cursor_change, hb, hsh, if_true, if_neg c4, if_neg c5, if_neg c6]
    rw [mul_comm, s32_of_int_range ⟨by omega, h2⟩, Int.tdiv_eq_ediv (by omega) (by norm_num)]
  · intro hsh
    simp only [fbcon_cursor_change, hb, hsh, if_true, if_neg c7, if_neg c8, if_neg c9,
      if_neg c10]
    rw [Int.tdiv_eq_ediv hb0 (by norm_num)]
  · intro n1 n2 n3 n4 n5
    simp only [fbcon_cursor_change, hb, if_neg n1, if_neg n2, if_neg n3, if_neg n4, if_neg n5]
    rw [s32_of_int_range ⟨by omega, by omega⟩]
  · have e1 : CM_CHANGE ≠ CM_ERASE := by decide
    have e2 : ¬ (CM_CHANGE = CM_MOVE ∨ CM_CHANGE = CM_DRAW) := by decide
    by_cases hg : info.cursor.pos_x = u32 (vc.vc_x * vc.vc_font.width) ∧
        info.cursor.pos_y = u32 (vc.vc_y * vc.vc_font.height) ∧ cursor_enable ≠ 0
    · rw [if_pos hg]
      obtain ⟨g1, g2, g3⟩ := hg
      simp [fbcon_cursor, u32_mul_left, g1, g2, g3, e1]
    · rw [if_neg hg]
      by_cases g1 : info.cursor.pos_x = u32 (vc.vc_x * vc.vc_font.width)
      · by_cases g2 : info.cursor.pos_y = u32 (vc.vc_y * vc.vc_font.height)
        · have g3 : cursor_enable = 0 := by
            by_contra hne
            exact hg ⟨g1, g2, hne⟩
          simp [fbcon_cursor, u32_mul_left, g1, g2, g3, e1, e2]
        · simp [fbcon_cursor, u32_mul_left, g2, e1, e2]
      · simp [fbcon_cursor, u32_mul_left, g1, e1, e2]
  · unfold fbcon_cursor
    have e1 : CM_CHANGE ≠ CM_ERASE := by decide
    have e2 : ¬ (CM_CHANGE = CM_MOVE ∨ CM_CHANGE = CM_DRAW) := by decide
    simp only [if_neg e1, if_neg e2, if_true]
    split <;> rfl
  · unfold fbcon_cursor
    have e1 : CM_CHANGE ≠ CM_ERASE := by decide
    have e2 : ¬ (CM_CHANGE = CM_MOVE ∨ CM_CHANGE = CM_DRAW) := by decide
    simp only [if_neg e1, if_neg e2, if_true]
    split <;> rfl

/-- C9 at a concrete input: the 8x16 console with the underline shape has the
band (13, 15), and a `CM_CHANGE` call away from the stored position computes it. -/
theorem fbcon_cursor_change_band_witness :
    fbcon_cursor_change vc_8x16 = (13, 15) ∧
      (fbcon_cursor { vc_8x16 with vc_x := 3 } info_640x400 CM_CHANGE 1).band =
        some (13, 15) := by
  have h := fbcon_cursor_change_band { vc_8x16 with vc_x := 3 } info_640x400 1
    (by decide) (by decide)
  refine ⟨?_, ?_⟩
  · have h6 := h.2.2.2.2.2.1 (by decide) (by decide) (by decide) (by decide) (by decide)
    rw [show fbcon_cursor_change vc_8x16 = fbcon_cursor_change { vc_8x16 with vc_x := 3 }
      from rfl, h6]
    decide
  · rw [h.2.2.2.2.2.2.1]
    decide

/-! ## Palette -/

theorem replicate_byte_eq (val : Int) : replicate_byte val = 257 * u8 val := by
  unfold replicate_byte u16 u8
  have hlt : (val % 256).toNat < 2 ^ 8 := by omega
  have hor : (val % 256).toNat <<< 8 ||| (val % 256).toNat =
      (val % 256).toNat <<< 8 + (val % 256).toNat := by
    rw [Nat.shiftLeft_eq, mul_comm]
    exact (Nat.mul_add_lt_is_or hlt _).symm
  show Int.ofNat ((val % 256).toNat <<< 8 ||| (val % 256).toNat) % 65536 = _
  rw [hor, Nat.shiftLeft_eq]
  simp only [Int.ofNat_eq_coe]
  omega

/-- The loop of `fbcon_set_palette` keeps the three channel arrays at their
allocated length. -/
theorem fbcon_set_palette_loop_length (vc : VcData) (table : Nat → Int) (len : Nat) :
    ∀ (n i j : Nat) (st : PaletteState),
      (fbcon_set_palette_loop vc table len n i j st).red.length = st.red.length ∧
      (fbcon_set_palette_loop vc table len n i j st).green.length = st.green.length ∧
      (fbcon_set_palette_loop vc table len n i j st).blue.length = st.blue.length := by
  intro n
  induction n with
  | zero => intro i j st; exact ⟨rfl, rfl, rfl⟩
  | succ n ih =>
    intro i j st
    simp only [fbcon_set_palette_loop]
    obtain ⟨h1, h2, h3⟩ := ih (i + 1) (j + 3) _
    rw [h1, h2, h3]
    simp [cmap_store]

/-- A slot that no remaining table entry names is left as it is. -/
theorem fbcon_set_palette_loop_untouched (vc : VcData) (table : Nat → Int) (len : Nat)
    (k : Nat) :
    ∀ (n i j : Nat) (st : PaletteState),
      (∀ i2 : Nat, i ≤ i2 → i2 < i + n → (u8 (table i2)).toNat ≠ k) →
      (fbcon_set_palette_loop vc table len n i j st).red[k]? = st.red[k]? ∧
      (fbcon_set_palette_loop vc table len n i j st).green[k]? = st.green[k]? ∧
      (fbcon_set_palette_loop vc table len n i j st).blue[k]? = st.blue[k]? := by
  intro n
  induction n with
  | zero => intro i j st _; exact ⟨rfl, rfl, rfl⟩
  | succ n ih =>
    intro i j st hne
    simp only [fbcon_set_palette_loop]
    obtain ⟨h1, h2, h3⟩ := ih (i + 1) (j + 3) _ (fun i2 ha hb => hne i2 (by omega) (by omega))
    have hk : (u8 (table i)).toNat ≠ k := hne i (le_refl _) (by omega)
    rw [h1, h2, h3]
    simp only [cmap_store]
    exact ⟨List.getElem?_set_ne hk, List.getElem?_set_ne hk, List.getElem?_set_ne hk⟩

/-- With table entries that are pairwise distinct, the slot named by entry
`i2` ends up holding the three palette bytes of colour `i2`, each replicated
into 16 bits. -/
theorem fbcon_set_palette_loop_slot (vc : VcData) (table : Nat → Int) (len : Nat) :
    ∀ (n i j : Nat) (st : PaletteState),
      (∀ a b : Nat, i ≤ a → a < i + n → i ≤ b → b < i + n →
        (u8 (table a)).toNat = (u8 (table b)).toNat → a = b) →
      ∀ i2 : Nat, i ≤ i2 → i2 < i + n →
        (u8 (table i2)).toNat < st.red.length →
        (u8 (table i2)).toNat < st.green.length →
        (u8 (table i2)).toNat < st.blue.length →
        (fbcon_set_palette_loop vc table len n i j st).red[(u8 (table i2)).toNat]? =
            some (some (replicate_byte (vc.vc_palette (j + 3 * (i2 - i))))) ∧
          (fbcon_set_palette_loop vc table len n i j st).green[(u8 (table i2)).toNat]? =
            some (some (replicate_byte (vc.vc_palette (j + 3 * (i2 - i) + 1)))) ∧
          (fbcon_set_palette_loop vc table len n i j st).blue[(u8 (table i2)).toNat]? =
            some (some (replicate_byte (vc.vc_palette (j + 3 * (i2 - i) + 2)))) := by
  intro n
  induction n with
  | zero => intro i j st _ i2 ha hb; omega
  | succ n ih =>
    intro i j st hinj i2 ha hb hr hg hbl
    simp only [fbcon_set_palette_loop]
    by_cases hi : i2 = i
    · subst hi
      obtain ⟨h1, h2, h3⟩ :=
        fbcon_set_palette_loop_untouched vc table len (u8 (table i2)).toNat n (i2 + 1) (j + 3)
          { red := cmap_store st.red (u8 (table i2)).toNat (replicate_byte (vc.vc_palette j))
            green := cmap_store st.green (u8 (table i2)).toNat
              (replicate_byte (vc.vc_palette (j + 1)))
            blue := cmap_store st.blue (u8 (table i2)).toNat
              (replicate_byte (vc.vc_palette (j + 2)))
            outside := if (u8 (table i2)).toNat < len then st.outside
              else st.outside ++ [(u8 (table i2)).toNat] }
          (fun a h1 h2 heq => by
            have := hinj a i2 (by omega) (by omega) (le_refl _) (by omega) heq
            omega)
      rw [h1, h2, h3]
      simp only [cmap_store, Nat.sub_self, Nat.mul_zero, Nat.add_zero]
      exact ⟨List.getElem?_set_self hr, List.getElem?_set_self hg, List.getElem?_set_self hbl⟩
    · have hidx : j + 3 + 3 * (i2 - (i + 1)) = j + 3 * (i2 - i) := by omega
      have := ih (i + 1) (j + 3)
        { red := cmap_store st.red (u8 (table i)).toNat (replicate_byte (vc.vc_palette j))
          green := cmap_store st.green (u8 (table i)).toNat
            (replicate_byte (vc.vc_palette (j + 1)))
          blue := cmap_store st.blue (u8 (table i)).toNat
            (replicate_byte (vc.vc_palette (j + 2)))
          outside := if (u8 (table i)).toNat < len then st.outside
            else st.outside ++ [(u8 (table i)).toNat] }
        (fun a b h1 h2 h3 h4 => hinj a b (by omega) (by omega) (by omega) (by omega))
        i2 (by omega) (by omega)
        (by simpa [cmap_store] using hr) (by simpa [cmap_store] using hg)
        (by simpa [cmap_store] using hbl)
      rw [hidx] at this
      exact this

/-- A table of 16 pairwise distinct entries below 16 names every slot. -/
theorem table_onto (table : Nat → Int)
    (hrange : ∀ i : Nat, i < 16 → 0 ≤ table i ∧ table i < 16)
    (hinj : ∀ i j : Nat, i < 16 → j < 16 → table i = table j → i = j) :
    ∀ k : Nat, k < 16 → ∃ i : Nat, i < 16 ∧ (table i).toNat = k := by
  intro k hk
  let f : Fin 16 → Fin 16 := fun i =>
    ⟨(table i.val).toNat, by have := hrange i.val i.isLt; omega⟩
  have hf : Function.Injective f := by
    intro a b hab
    have h1 : (table a.val).toNat = (table b.val).toNat := congrArg Fin.val hab
    have ha := hrange a.val a.isLt
    have hb := hrange b.val b.isLt
    exact Fin.ext (hinj a.val b.val a.isLt b.isLt (by omega))
  obtain ⟨i, hi⟩ := (Finite.injective_iff_surjective.mp hf) ⟨k, hk⟩
  exact ⟨i.val, i.isLt, congrArg Fin.val hi⟩

/-- C10: on a surface of depth 4, for every table whose 16 entries are a
permutation of 0..15, `fbcon_set_palette` (its three allocations succeeding)
issues exactly one `fb_set_cmap`, with start 0 and 16 slots, in which slot
`table[i]` holds red, green and blue `(v<<8)|v` for `v` the bytes `3i`,
`3i+1`, `3i+2` of the console palette; `(v<<8)|v` is 257 times the byte, and
all 16 slots of each channel are written. -/
theorem fbcon_set_palette_depth4 (vc : VcData) (info : FbInfo) (table : Nat → Int)
    (set_cmap_ret : Int)
    (hdepth : info.var_bits_per_pixel = 4)
    (hrange : ∀ i : Nat, i < 16 → 0 ≤ table i ∧ table i < 16)
    (hinj : ∀ i j : Nat, i < 16 → j < 16 → table i = table j → i = j) :
    ∃ cmap : FbCmap,
      fbcon_set_palette vc info table true true true set_cmap_ret =
        ([FbCall.fb_set_cmap cmap 1], set_cmap_ret) ∧
      cmap.start = 0 ∧ cmap.len = 16 ∧
      cmap.red.length = 16 ∧ cmap.green.length = 16 ∧ cmap.blue.length = 16 ∧
      (∀ i : Nat, i < 16 →
        cmap.red[(table i).toNat]? = some (some (replicate_byte (vc.vc_palette (3 * i)))) ∧
        cmap.green[(table i).toNat]? =
          some (some (replicate_byte (vc.vc_palette (3 * i + 1)))) ∧
        cmap.blue[(table i).toNat]? =
          some (some (replicate_byte (vc.vc_palette (3 * i + 2))))) ∧
      (∀ v : Int, replicate_byte v = 257 * u8 v) ∧
      (∀ k : Nat, k < 16 → ∃ r g b : Int,
        cmap.red[k]? = some (some r) ∧ cmap.green[k]? = some (some g) ∧
        cmap.blue[k]? = some (some b)) := by
  have hlen : (if info.var_bits_per_pixel ≤ 4 then u32 (2 ^ info.var_bits_per_pixel.toNat)
      else 16) = 16 := by
    rw [hdepth]; decide
  have hkey : ∀ i : Nat, i < 16 → (u8 (table i)).toNat = (table i).toNat := by
    intro i hi
    have := hrange i hi
    unfold u8
    omega
  have hlens := fbcon_set_palette_loop_length vc table 16 16 0 0
    { red := List.replicate 16 none, green := List.replicate 16 none,
      blue := List.replicate 16 none, outside := [] }
  have hslot : ∀ i : Nat, i < 16 →
      (fbcon_set_palette_loop vc table 16 16 0 0
        { red := List.replicate 16 none, green := List.replicate 16 none,
          blue := List.replicate 16 none, outside := [] }).red[(table i).toNat]? =
          some (some (replicate_byte (vc.vc_palette (3 * i)))) ∧
        (fbcon_set_palette_loop vc table 16 16 0 0
          { red := List.replicate 16 none, green := List.replicate 16 none,
            blue := List.replicate 16 none, outside := [] }).green[(table i).toNat]? =
          some (some (replicate_byte (vc.vc_palette (3 * i + 1)))) ∧
        (fbcon_set_palette_loop vc table 16 16 0 0
          { red := List.replicate 16 none, green := List.replicate 16 none,
            blue := List.replicate 16 none, outside := [] }).blue[(table i).toNat]? =
          some (some (replicate_byte (vc.vc_palette (3 * i + 2)))) := by
    intro i hi
    have hr := hrange i hi
    have hb : (u8 (table i)).toNat < 16 := by rw [hkey i hi]; omega
    have h := fbcon_set_palette_loop_slot vc table 16 16 0 0
      { red := List.replicate 16 none, green := List.replicate 16 none,
        blue := List.replicate 16 none, outside := [] }
      (fun a b _ ha _ hb2 heq => by
        rw [hkey a (by omega), hkey b (by omega)] at heq
        have h1 := hrange a (by omega)
        have h2 := hrange b (by omega)
        exact hinj a b (by omega) (by omega) (by omega))
      i (Nat.zero_le _) (by omega)
      (by simpa using hb) (by simpa using hb) (by simpa using hb)
    rw [hkey i hi] at h
    simpa using h
  have hcall : fbcon_set_palette vc info table true true true set_cmap_ret =
      ([FbCall.fb_set_cmap
        { start := 0, len := 16,
          red := (fbcon_set_palette_loop vc table 16 16 0 0
            { red := List.replicate 16 none, green := List.replicate 16 none,
              blue := List.replicate 16 none, outside := [] }).red
          green := (fbcon_set_palette_loop vc table 16 16 0 0
            { red := List.replicate 16 none, green := List.replicate 16 none,
              blue := List.replicate 16 none, outside := [] }).green
          blue := (fbcon_set_palette_loop vc table 16 16 0 0
            { red := List.replicate 16 none, green := List.replicate 16 none,
              blue := List.replicate 16 none, outside := [] }).blue } 1], set_cmap_ret) := by
    have h16 : (16 : Int).toNat = 16 := rfl
    simp only [fbcon_set_palette, hlen, h16]
    simp
  simp only [List.length_replicate] at hlens
  generalize fbcon_set_palette_loop vc table 16 16 0 0
    { red := List.replicate 16 none, green := List.replicate 16 none,
      blue := List.replicate 16 none, outside := [] } = st at hcall hlens hslot
  refine ⟨{ start := 0, len := 16, red := st.red, green := st.green, blue := st.blue },
    hcall, rfl, rfl, hlens.1, hlens.2.1, hlens.2.2, hslot, replicate_byte_eq, ?_⟩
  intro k hk
  obtain ⟨i, hi, hik⟩ := table_onto table hrange hinj k hk
  obtain ⟨h1, h2, h3⟩ := hslot i hi
  rw [hik] at h1 h2 h3
  exact ⟨_, _, _, h1, h2, h3⟩

/-- C10 at a concrete input: the reversing table on the depth-4 surface, with
console palette bytes 0, 1, 2, ...: one `fb_set_cmap` of 16 slots, and slot 15
(named by entry 0) holds colour 0 = (0, 257, 514). -/
theorem fbcon_set_palette_depth4_witness :
    ∃ cmap : FbCmap,
      fbcon_set_palette vc_8x16 info_depth4 table_reversed true true true 0 =
        ([FbCall.fb_set_cmap cmap 1], 0) ∧
      cmap.start = 0 ∧ cmap.len = 16 ∧
      cmap.red[15]? = some (some 0) ∧ cmap.green[15]? = some (some 257) ∧
      cmap.blue[15]? = some (some 514) := by
  obtain ⟨cmap, h1, h2, h3, _, _, _, h7, _, _⟩ :=
    fbcon_set_palette_depth4 vc_8x16 info_depth4 table_reversed 0 (by decide)
      (fun i hi => by unfold table_reversed; omega)
      (fun i j _ _ h => by unfold table_reversed at h; omega)
  have h := h7 0 (by decide)
  have e0 : replicate_byte (vc_8x16.vc_palette (3 * 0)) = 0 := by decide
  have e1 : replicate_byte (vc_8x16.vc_palette (3 * 0 + 1)) = 257 := by decide
  have e2 : replicate_byte (vc_8x16.vc_palette (3 * 0 + 2)) = 514 := by decide
  have e3 : (table_reversed 0).toNat = 15 := by decide
  rw [e0, e1, e2, e3] at h
  exact ⟨cmap, h1, h2, h3, h.1, h.2.1, h.2.2⟩

/-- The colour map `fbcon_set_palette` hands over has `2^depth` slots for a
depth of at most 4 and 16 slots otherwise, so never more than 16. -/
theorem fbcon_set_palette_len (vc : VcData) (info : FbInfo) (table : Nat → Int)
    (set_cmap_ret : Int) (h0 : 0 ≤ info.var_bits_per_pixel) :
    ∃ cmap : FbCmap,
      fbcon_set_palette vc info table true true true set_cmap_ret =
        ([FbCall.fb_set_cmap cmap 1], set_cmap_ret) ∧
      cmap.start = 0 ∧
      cmap.len = (if info.var_bits_per_pixel ≤ 4 then 2 ^ info.var_bits_per_pixel.toNat
        else 16) ∧
      cmap.len ≤ 16 := by
  have hlen : (if info.var_bits_per_pixel ≤ 4 then u32 (2 ^ info.var_bits_per_pixel.toNat)
      else 16) = (if info.var_bits_per_pixel ≤ 4 then 2 ^ info.var_bits_per_pixel.toNat
      else 16) ∧
      (if info.var_bits_per_pixel ≤ 4 then (2 : Int) ^ info.var_bits_per_pixel.toNat
        else 16) ≤ 16 := by
    by_cases h : info.var_bits_per_pixel ≤ 4
    · rw [if_pos h, if_pos h]
      have hn : info.var_bits_per_pixel.toNat ≤ 4 := by omega
      generalize info.var_bits_per_pixel.toNat = n at hn
      interval_cases n <;> exact ⟨by decide, by decide⟩
    · rw [if_neg h, if_neg h]
      exact ⟨rfl, le_refl _⟩
  unfold fbcon_set_palette
  rw [hlen.1]
  exact ⟨_, rfl, rfl, rfl, hlen.2⟩

/-- C11: on the depth-1 surface with the console layer's colour table, the
colour map `fbcon_set_palette` hands over has 2 slots, and the second store of
the loop goes to slot `table[1] = 4`, outside the two slots allocated. -/
theorem fbcon_set_palette_store_outside :
    (∃ red green blue : List (Option Int),
        fbcon_set_palette vc_8x16 info_depth1 color_table true true true 0 =
          ([FbCall.fb_set_cmap
            { start := 0, len := 2, red := red, green := green, blue := blue } 1], 0) ∧
        red.length = 2 ∧ green.length = 2 ∧ blue.length = 2) ∧
      color_table 1 = 4 ∧
      fbcon_set_palette_outside vc_8x16 info_depth1 color_table = [4] := by
  refine ⟨⟨_, _, _, rfl, ?_, ?_, ?_⟩, by decide, by decide⟩ <;> decide

/-! ## Startup -/

/-- The result of `fbcon_startup` once a surface, a font of non-zero cell size
and the colour map are there. -/
theorem fbcon_startup_ok (env : StartupEnv) (vc : VcData) (derived : VcDerived)
    (hook : Option FbInfo) (info : FbInfo) (font : FbconFontDesc)
    (hnum : env.num_registered_fb ≠ 0)
    (hinfo : env.registered_fb (env.num_registered_fb - 1) = some info)
    (hfont : fbcon_startup_font env info = some font)
    (halloc : env.fb_alloc_cmap = 0)
    (hw : u32 font.width ≠ 0) (hh : u32 font.height ≠ 0) :
    ∃ r : StartupResult,
      fbcon_startup env vc derived hook = some r ∧
      r.ret = some "frame buffer device" ∧ r.data_hook = some info ∧
      r.vc.vc_font.width = u32 font.width ∧ r.vc.vc_font.height = u32 font.height ∧
      r.vc.vc_cols = info.var_xres / u32 font.width ∧
      r.vc.vc_rows = info.var_yres / u32 font.height := by
  have hne : ¬ (u32 font.width = 0 ∨ u32 font.height = 0) := by
    intro h; cases h with
    | inl h => exact hw h
    | inr h => exact hh h
  unfold fbcon_startup
  simp only [if_neg hnum, hinfo, hfont, halloc, ne_eq, not_true_eq_false, if_false, if_neg hne]
  exact ⟨_, rfl, rfl, rfl, rfl, rfl, rfl, rfl⟩

/-- C12: when `fbcon_startup` has a surface of `xres x yres` pixels, selects a
font of cell size `fw x fh` with `fw, fh > 0` and gets its colour map, it
returns the description and leaves the console with `cols = xres / fw` and
`rows = yres / fh` (integer division), so `cols*fw <= xres` and
`rows*fh <= yres`. -/
theorem fbcon_startup_geometry (env : StartupEnv) (vc : VcData) (derived : VcDerived)
    (hook : Option FbInfo) (info : FbInfo) (font : FbconFontDesc)
    (hnum : env.num_registered_fb ≠ 0)
    (hinfo : env.registered_fb (env.num_registered_fb - 1) = some info)
    (hfont : fbcon_startup_font env info = some font)
    (halloc : env.fb_alloc_cmap = 0)
    (hw : 0 < font.width) (hh : 0 < font.height)
    (hwr : int_range font.width) (hhr : int_range font.height) :
    ∃ r : StartupResult,
      fbcon_startup env vc derived hook = some r ∧
      r.ret = some "frame buffer device" ∧
      r.vc.vc_font.width = font.width ∧ r.vc.vc_font.height = font.height ∧
      r.vc.vc_cols = info.var_xres / font.width ∧
      r.vc.vc_rows = info.var_yres / font.height ∧
      r.vc.vc_cols * font.width ≤ info.var_xres ∧
      r.vc.vc_rows * font.height ≤ info.var_yres := by
  have ew : u32 font.width = font.width :=
    u32_of_uint_range ⟨by omega, by unfold int_range at hwr; omega⟩
  have eh : u32 font.height = font.height :=
    u32_of_uint_range ⟨by omega, by unfold int_range at hhr; omega⟩
  obtain ⟨r, h1, h2, _, h4, h5, h6, h7⟩ :=
    fbcon_startup_ok env vc derived hook info font hnum hinfo hfont halloc
      (by rw [ew]; omega) (by rw [eh]; omega)
  rw [ew] at h4 h6
  rw [eh] at h5 h7
  refine ⟨r, h1, h2, h4, h5, h6, h7, ?_, ?_⟩
  · rw [h6]; exact Int.ediv_mul_le _ (by omega)
  · rw [h7]; exact Int.ediv_mul_le _ (by omega)

/-- C12 at a concrete input: the 640x400 surface with the 8x16 font gives 80
columns and 25 rows. -/
theorem fbcon_startup_geometry_witness :
    ∃ r : StartupResult,
      fbcon_startup env_640x400 vc_unset derived_unset none = some r ∧
      r.ret = some "frame buffer device" ∧ r.vc.vc_cols = 80 ∧ r.vc.vc_rows = 25 := by
  obtain ⟨r, h1, h2, _, _, h5, h6, _, _⟩ :=
    fbcon_startup_geometry env_640x400 vc_unset derived_unset none info_640x400
      { width := 8, height := 16 } (by decide) rfl rfl rfl (by decide) (by decide)
      (by decide) (by decide)
  exact ⟨r, h1, h2, by rw [h5]; decide, by rw [h6]; decide⟩

/-- The font selection of `fbcon_startup` in terms of the boot option and the
two lookups of the font store: the font found by name when a name is given
and the store has it, else the default for the resolution. -/
theorem fbcon_startup_font_eq (env : StartupEnv) (info : FbInfo) :
    (∀ font : FbconFontDesc,
        fbcon_startup_font env info = some font ↔
          (env.fontname ≠ "" ∧ env.fbcon_find_font env.fontname = some font) ∨
          ((env.fontname = "" ∨ env.fbcon_find_font env.fontname = none) ∧
            env.fbcon_get_default_font info.var_xres info.var_yres = some font)) ∧
      (fbcon_startup_font env info = none ↔
        (env.fontname = "" ∨ env.fbcon_find_font env.fontname = none) ∧
          env.fbcon_get_default_font info.var_xres info.var_yres = none) := by
  unfold fbcon_startup_font
  by_cases hname : env.fontname = ""
  · rw [if_pos hname]
    refine ⟨fun font => ⟨fun h => Or.inr ⟨Or.inl hname, h⟩, fun h => ?_⟩,
      ⟨fun h => ⟨Or.inl hname, h⟩, fun h => h.2⟩⟩
    cases h with
    | inl h => exact absurd hname h.1
    | inr h => exact h.2
  · rw [if_neg hname]
    cases hfind : env.fbcon_find_font env.fontname with
    | none =>
      refine ⟨fun font => ⟨fun h => Or.inr ⟨Or.inr rfl, h⟩, fun h => ?_⟩,
        ⟨fun h => ⟨Or.inr rfl, h⟩, fun h => h.2⟩⟩
      cases h with
      | inl h => cases h.2
      | inr h => exact h.2
    | some f =>
      refine ⟨fun font => ⟨fun h => Or.inl ⟨hname, h⟩, fun h => ?_⟩,
        ⟨(fun h => by cases h), fun h => ?_⟩⟩
      · cases h with
        | inl h => exact h.2
        | inr h =>
          cases h.1 with
          | inl h1 => exact absurd h1 hname
          | inr h1 => cases h1
      · cases h.1 with
        | inl h1 => exact absurd h1 hname
        | inr h1 => cases h1

/-- The five ways `fbcon_startup` can go: no surface in the slot it takes, no
font, no colour map (it returns NULL and leaves `data_hook` in all three), a
font of zero cell size (it does not return), or success. -/
theorem fbcon_startup_cases (env : StartupEnv) (vc : VcData) (derived : VcDerived)
    (hook : Option FbInfo) :
    ((env.num_registered_fb = 0 ∨ env.registered_fb (env.num_registered_fb - 1) = none) ∧
        ∃ r : StartupResult, fbcon_startup env vc derived hook = some r ∧
          r.ret = none ∧ r.data_hook = hook) ∨
      (∃ info : FbInfo, env.num_registered_fb ≠ 0 ∧
        env.registered_fb (env.num_registered_fb - 1) = some info ∧
        ((fbcon_startup_font env info = none ∧
            ∃ r : StartupResult, fbcon_startup env vc derived hook = some r ∧
              r.ret = none ∧ r.data_hook = hook) ∨
          ∃ font : FbconFontDesc, fbcon_startup_font env info = some font ∧
            ((env.fb_alloc_cmap ≠ 0 ∧
                ∃ r : StartupResult, fbcon_startup env vc derived hook = some r ∧
                  r.ret = none ∧ r.data_hook = hook) ∨
              (env.fb_alloc_cmap = 0 ∧ (u32 font.width = 0 ∨ u32 font.height = 0) ∧
                fbcon_startup env vc derived hook = none) ∨
              (env.fb_alloc_cmap = 0 ∧ u32 font.width ≠ 0 ∧ u32 font.height ≠ 0 ∧
                ∃ r : StartupResult, fbcon_startup env vc derived hook = some r ∧
                  r.ret = some "frame buffer device" ∧ r.data_hook = some info ∧
                  r.vc.vc_font.width = u32 font.width ∧
                  r.vc.vc_font.height = u32 font.height)))) := by
  by_cases hnum : env.num_registered_fb = 0
  · left
    refine ⟨Or.inl hnum, ?_⟩
    unfold fbcon_startup
    rw [if_pos hnum]
    exact ⟨_, rfl, rfl, rfl⟩
  · cases hinfo : env.registered_fb (env.num_registered_fb - 1) with
    | none =>
      left
      refine ⟨Or.inr rfl, ?_⟩
      unfold fbcon_startup
      simp only [if_neg hnum, hinfo]
      exact ⟨_, rfl, rfl, rfl⟩
    | some info =>
      right
      refine ⟨info, hnum, rfl, ?_⟩
      cases hfont : fbcon_startup_font env info with
      | none =>
        left
        refine ⟨rfl, ?_⟩
        unfold fbcon_startup
        simp only [if_neg hnum, hinfo, hfont]
        exact ⟨_, rfl, rfl, rfl⟩
      | some font =>
        right
        refine ⟨font, rfl, ?_⟩
        by_cases halloc : env.fb_alloc_cmap = 0
        · by_cases hz : u32 font.width = 0 ∨ u32 font.height = 0
          · right; left
            refine ⟨halloc, hz, ?_⟩
            unfold fbcon_startup
            simp only [if_neg hnum, hinfo, hfont, halloc, ne_eq, not_true_eq_false, if_false,
              if_pos hz]
          · right; right
            have hw : u32 font.width ≠ 0 := fun h => hz (Or.inl h)
            have hh : u32 font.height ≠ 0 := fun h => hz (Or.inr h)
            obtain ⟨r, h1, h2, h3, h4, h5, _⟩ :=
              fbcon_startup_ok env vc derived hook info font hnum hinfo hfont halloc hw hh
            exact ⟨halloc, hw, hh, r, h1, h2, h3, h4, h5⟩
        · left
          refine ⟨halloc, ?_⟩
          unfold fbcon_startup
          simp only [if_neg hnum, hinfo, hfont, ne_eq, halloc, not_false_eq_true, if_true]
          exact ⟨_, rfl, rfl, rfl⟩

/-- C13, as stated, fails: with two slots counted, the 640x400 surface
registered and non-null in slot 0 and slot 1 NULL, the default 8x16 font found
and the colour map allocated, `fbcon_startup` returns NULL: it looks at slot
`num_registered_fb - 1` only. -/
theorem fbcon_startup_null_slot_returns_null :
    env_null_slot.num_registered_fb = 2 ∧
      env_null_slot.registered_fb 0 = some info_640x400 ∧
      env_null_slot.registered_fb 1 = none ∧
      env_null_slot.fontname = "" ∧
      env_null_slot.fbcon_get_default_font info_640x400.var_xres info_640x400.var_yres =
        some { width := 8, height := 16 } ∧
      env_null_slot.fb_alloc_cmap = 0 ∧
      ∃ r : StartupResult,
        fbcon_startup env_null_slot vc_unset derived_unset none = some r ∧
        r.ret = none ∧ r.data_hook = none :=
  ⟨rfl, rfl, rfl, rfl, rfl, rfl, _, rfl, rfl, rfl⟩

/-- C13, amended: `fbcon_startup` returns the description "frame buffer
device" if and only if `num_registered_fb` is non-zero and the slot it takes,
`registered_fb[num_registered_fb - 1]`, is non-null, a font is found (the font
named at boot when a name is given and the font store has it, else the
store's default for the surface resolution), the colour map allocation
succeeds, and the font's cell width and height are non-zero (with a zero one
the function divides by zero and does not return).  On success the surface is
attached (`data_hook`) and the font found is the console's font.  In each of
the three failing cases (no surface in that slot, no font, allocation
failure) it returns NULL, and whenever it returns NULL `data_hook` is left as
it was. -/
theorem fbcon_startup_description_iff (env : StartupEnv) (vc : VcData) (derived : VcDerived)
    (hook : Option FbInfo) :
    ((∃ r : StartupResult, fbcon_startup env vc derived hook = some r ∧
          r.ret = some "frame buffer device") ↔
        env.num_registered_fb ≠ 0 ∧
        ∃ (info : FbInfo) (font : FbconFontDesc),
          env.registered_fb (env.num_registered_fb - 1) = some info ∧
          ((env.fontname ≠ "" ∧ env.fbcon_find_font env.fontname = some font) ∨
            ((env.fontname = "" ∨ env.fbcon_find_font env.fontname = none) ∧
              env.fbcon_get_default_font info.var_xres info.var_yres = some font)) ∧
          env.fb_alloc_cmap = 0 ∧ u32 font.width ≠ 0 ∧ u32 font.height ≠ 0) ∧
      (∀ r : StartupResult, fbcon_startup env vc derived hook = some r →
        r.ret = some "frame buffer device" →
        ∃ (info : FbInfo) (font : FbconFontDesc),
          env.registered_fb (env.num_registered_fb - 1) = some info ∧
          ((env.fontname ≠ "" ∧ env.fbcon_find_font env.fontname = some font) ∨
            ((env.fontname = "" ∨ env.fbcon_find_font env.fontname = none) ∧
              env.fbcon_get_default_font info.var_xres info.var_yres = some font)) ∧
          r.data_hook = some info ∧
          r.vc.vc_font.width = u32 font.width ∧ r.vc.vc_font.height = u32 font.height) ∧
      (env.num_registered_fb = 0 ∨ env.registered_fb (env.num_registered_fb - 1) = none →
        ∃ r : StartupResult, fbcon_startup env vc derived hook = some r ∧
          r.ret = none ∧ r.data_hook = hook) ∧
      (∀ info : FbInfo, env.num_registered_fb ≠ 0 →
        env.registered_fb (env.num_registered_fb - 1) = some info →
        (env.fontname = "" ∨ env.fbcon_find_font env.fontname = none) →
        env.fbcon_get_default_font info.var_xres info.var_yres = none →
        ∃ r : StartupResult, fbcon_startup env vc derived hook = some r ∧
          r.ret = none ∧ r.data_hook = hook) ∧
      (∀ (info : FbInfo) (font : FbconFontDesc), env.num_registered_fb ≠ 0 →
        env.registered_fb (env.num_registered_fb - 1) = some info →
        ((env.fontname ≠ "" ∧ env.fbcon_find_font env.fontname = some font) ∨
          ((env.fontname = "" ∨ env.fbcon_find_font env.fontname = none) ∧
            env.fbcon_get_default_font info.var_xres info.var_yres = some font)) →
        env.fb_alloc_cmap ≠ 0 →
        ∃ r : StartupResult, fbcon_startup env vc derived hook = some r ∧
          r.ret = none ∧ r.data_hook = hook) ∧
      (∀ r : StartupResult, fbcon_startup env vc derived hook = some r →
        (r.ret = none ∨ r.ret = some "frame buffer device") ∧
        (r.ret = none → r.data_hook = hook)) ∧
      (fbcon_startup env vc derived hook = none ↔
        env.num_registered_fb ≠ 0 ∧
        ∃ (info : FbInfo) (font : FbconFontDesc),
          env.registered_fb (env.num_registered_fb - 1) = some info ∧
          ((env.fontname ≠ "" ∧ env.fbcon_find_font env.fontname = some font) ∨
            ((env.fontname = "" ∨ env.fbcon_find_font env.fontname = none) ∧
              env.fbcon_get_default_font info.var_xres info.var_yres = some font)) ∧
          env.fb_alloc_cmap = 0 ∧ (u32 font.width = 0 ∨ u32 font.height = 0)) := by
  have hcases := fbcon_startup_cases env vc derived hook
  have hnull : ∀ r r2 : StartupResult, fbcon_startup env vc derived hook = some r →
      fbcon_startup env vc derived hook = some r2 → r2.ret = none →
      r.ret ≠ some "frame buffer device" := by
    intro r r2 h1 h2 h3 h4
    rw [h1] at h2
    cases h2
    rw [h3] at h4
    cases h4
  refine ⟨⟨?_, ?_⟩, ?_, ?_, ?_, ?_, ?_, ⟨?_, ?_⟩⟩
  · rintro ⟨r, hr, hret⟩
    rcases hcases with ⟨_, r2, h2, h3, _⟩ | ⟨info, hnum, hinfo, hrest⟩
    · exact absurd hret (hnull r r2 hr h2 h3)
    · rcases hrest with ⟨_, r2, h2, h3, _⟩ | ⟨font, hfont, hrest2⟩
      · exact absurd hret (hnull r r2 hr h2 h3)
      · rcases hrest2 with ⟨_, r2, h2, h3, _⟩ | ⟨_, _, hn⟩ | ⟨halloc, hw, hh, _⟩
        · exact absurd hret (hnull r r2 hr h2 h3)
        · rw [hn] at hr; cases hr
        · exact ⟨hnum, info, font, hinfo,
            ((fbcon_startup_font_eq env info).1 font).mp hfont, halloc, hw, hh⟩
  · rintro ⟨hnum, info, font, hinfo, hsel, halloc, hw, hh⟩
    obtain ⟨r, h1, h2, _⟩ := fbcon_startup_ok env vc derived hook info font hnum hinfo
      (((fbcon_startup_font_eq env info).1 font).mpr hsel) halloc hw hh
    exact ⟨r, h1, h2⟩
  · intro r hr hret
    rcases hcases with ⟨_, r2, h2, h3, _⟩ | ⟨info, hnum, hinfo, hrest⟩
    · exact absurd hret (hnull r r2 hr h2 h3)
    · rcases hrest with ⟨_, r2, h2, h3, _⟩ | ⟨font, hfont, hrest2⟩
      · exact absurd hret (hnull r r2 hr h2 h3)
      · rcases hrest2 with ⟨_, r2, h2, h3, _⟩ | ⟨_, _, hn⟩ | ⟨_, _, _, r2, h2, _, h4, h5, h6⟩
        · exact absurd hret (hnull r r2 hr h2 h3)
        · rw [hn] at hr; cases hr
        · rw [hr] at h2
          cases h2
          exact ⟨info, font, hinfo, ((fbcon_startup_font_eq env info).1 font).mp hfont,
            h4, h5, h6⟩
  · intro h
    by_cases hnum : env.num_registered_fb = 0
    · unfold fbcon_startup
      rw [if_pos hnum]
      exact ⟨_, rfl, rfl, rfl⟩
    · have hnone : env.registered_fb (env.num_registered_fb - 1) = none := by
        cases h with
        | inl h => exact absurd h hnum
        | inr h => exact h
      unfold fbcon_startup
      simp only [if_neg hnum, hnone]
      exact ⟨_, rfl, rfl, rfl⟩
  · intro info hnum hinfo hname hdef
    have hfont : fbcon_startup_font env info = none :=
      (fbcon_startup_font_eq env info).2.mpr ⟨hname, hdef⟩
    unfold fbcon_startup
    simp only [if_neg hnum, hinfo, hfont]
    exact ⟨_, rfl, rfl, rfl⟩
  · intro info font hnum hinfo hsel halloc
    have hfont : fbcon_startup_font env info = some font :=
      ((fbcon_startup_font_eq env info).1 font).mpr hsel
    unfold fbcon_startup
    simp only [if_neg hnum, hinfo, hfont, ne_eq, halloc, not_false_eq_true, if_true]
    exact ⟨_, rfl, rfl, rfl⟩
  · intro r hr
    have hsame : ∀ r2 : StartupResult, fbcon_startup env vc derived hook = some r2 →
        r2 = r := by
      intro r2 h2
      rw [hr] at h2
      cases h2
      rfl
    rcases hcases with ⟨_, r2, h2, h3, h4⟩ | ⟨info, hnum, hinfo, hrest⟩
    · rw [hsame r2 h2] at h3 h4
      exact ⟨Or.inl h3, fun _ => h4⟩
    · rcases hrest with ⟨_, r2, h2, h3, h4⟩ | ⟨font, hfont, hrest2⟩
      · rw [hsame r2 h2] at h3 h4
        exact ⟨Or.inl h3, fun _ => h4⟩
      · rcases hrest2 with ⟨_, r2, h2, h3, h4⟩ | ⟨_, _, hn⟩ | ⟨_, _, _, r2, h2, h3, _⟩
        · rw [hsame r2 h2] at h3 h4
          exact ⟨Or.inl h3, fun _ => h4⟩
        · rw [hn] at hr; cases hr
        · rw [hsame r2 h2] at h3
          exact ⟨Or.inr h3, fun hnone => by rw [hnone] at h3; cases h3⟩
  · intro hn
    rcases hcases with ⟨_, r2, h2, _⟩ | ⟨info, hnum, hinfo, hrest⟩
    · rw [hn] at h2; cases h2
    · rcases hrest with ⟨_, r2, h2, _⟩ | ⟨font, hfont, hrest2⟩
      · rw [hn] at h2; cases h2
      · rcases hrest2 with ⟨_, r2, h2, _⟩ | ⟨halloc, hz, _⟩ | ⟨_, _, _, r2, h2, _⟩
        · rw [hn] at h2; cases h2
        · exact ⟨hnum, info, font, hinfo,
            ((fbcon_startup_font_eq env info).1 font).mp hfont, halloc, hz⟩
        · rw [hn] at h2; cases h2
  · rintro ⟨hnum, info, font, hinfo, hsel, halloc, hz⟩
    have hfont : fbcon_startup_font env info = some font :=
      ((fbcon_startup_font_eq env info).1 font).mpr hsel
    unfold fbcon_startup
    simp only [if_neg hnum, hinfo, hfont, halloc, ne_eq, not_true_eq_false, if_false,
      if_pos hz]

/-- C13 amended, at concrete inputs.  With the 640x400 surface in the slot
taken, the default 8x16 font and the colour map, startup returns the
description; so it does with the font `VGA8x8` named at boot, and the console
then has that 8x8 font, not the default.  With no surface registered, with a
font store that has no font, and with a failing colour map allocation it
returns NULL and attaches nothing. -/
theorem fbcon_startup_description_iff_witness :
    (∃ r : StartupResult,
        fbcon_startup env_640x400 vc_unset derived_unset none = some r ∧
          r.ret = some "frame buffer device") ∧
      (∃ r : StartupResult,
        fbcon_startup env_named_font vc_unset derived_unset none = some r ∧
          r.ret = some "frame buffer device" ∧ r.data_hook = some info_640x400 ∧
          r.vc.vc_font.width = 8 ∧ r.vc.vc_font.height = 8) ∧
      (∃ r : StartupResult,
        fbcon_startup { env_640x400 with num_registered_fb := 0 } vc_unset derived_unset none =
          some r ∧ r.ret = none ∧ r.data_hook = none) ∧
      (∃ r : StartupResult,
        fbcon_startup env_no_font vc_unset derived_unset none = some r ∧
          r.ret = none ∧ r.data_hook = none) ∧
      (∃ r : StartupResult,
        fbcon_startup env_no_cmap vc_unset derived_unset none = some r ∧
          r.ret = none ∧ r.data_hook = none) := by
  refine ⟨?_, ?_, ?_, ?_, ?_⟩
  · exact (fbcon_startup_description_iff env_640x400 vc_unset derived_unset none).1.mpr
      ⟨by decide, info_640x400, { width := 8, height := 16 }, rfl,
        Or.inr ⟨Or.inl rfl, rfl⟩, rfl, by decide, by decide⟩
  · have h := fbcon_startup_description_iff env_named_font vc_unset derived_unset none
    obtain ⟨r, hr, hret⟩ := h.1.mpr
      ⟨by decide, info_640x400, { width := 8, height := 8 }, rfl,
        Or.inl ⟨by decide, rfl⟩, rfl, by decide, by decide⟩
    obtain ⟨info, font, hinfo, hsel, hhook, hw, hh⟩ := h.2.1 r hr hret
    have hi : info = info_640x400 := by
      have h0 : env_named_font.registered_fb (env_named_font.num_registered_fb - 1) =
          some info_640x400 := rfl
      rw [h0] at hinfo
      cases hinfo
      rfl
    have hf : font = { width := 8, height := 8 } := by
      cases hsel with
      | inl h1 =>
        have h0 : env_named_font.fbcon_find_font env_named_font.fontname =
            some { width := 8, height := 8 } := rfl
        rw [h0] at h1
        cases h1.2
        rfl
      | inr h1 =>
        cases h1.1 with
        | inl h2 => exact absurd h2 (by decide)
        | inr h2 =>
          have h0 : env_named_font.fbcon_find_font env_named_font.fontname =
              some { width := 8, height := 8 } := rfl
          rw [h0] at h2
          cases h2
    rw [hi] at hhook
    rw [hf] at hw hh
    exact ⟨r, hr, hret, hhook, by rw [hw]; decide, by rw [hh]; decide⟩
  · exact (fbcon_startup_description_iff { env_640x400 with num_registered_fb := 0 } vc_unset
      derived_unset none).2.2.1 (Or.inl rfl)
  · exact (fbcon_startup_description_iff env_no_font vc_unset derived_unset none).2.2.2.1
      info_640x400 (by decide) rfl (Or.inl rfl) rfl
  · exact (fbcon_startup_description_iff env_no_cmap vc_unset derived_unset none).2.2.2.2.1
      info_640x400 { width := 8, height := 16 } (by decide) rfl (Or.inr ⟨Or.inl rfl, rfl⟩)
      (by decide)

/-! ## Blank, move, font operations, resize -/

/-- C14: `fbcon_blank` returns 0 for every input and issues at most one
backend command: `fb_blank(arg)` when the backend provides it; otherwise, on a
surface that reports acceleration, one `fb_fillrect` over `(0, 0, xres, yres)`
with colour 0; otherwise, on an indexed or direct-colour visual with a
non-zero blank argument, one `fb_set_cmap` of 16 slots from 0 whose red, green
and blue entries are all zero; otherwise nothing. -/
theorem fbcon_blank_one_command (vc : VcData) (info : FbInfo) (blank : Int) :
    (fbcon_blank vc info blank).2 = 0 ∧
      (fbcon_blank vc info blank).1.length ≤ 1 ∧
      (info.has_fb_blank = true →
        (fbcon_blank vc info blank).1 = [FbCall.fb_blank blank]) ∧
      (info.has_fb_blank = false → info.var_accel_flags ≠ FB_ACCEL_NONE →
        (fbcon_blank vc info blank).1 =
          [FbCall.fb_fillrect 0 0 info.var_xres info.var_yres 0 ROP_COPY]) ∧
      (info.has_fb_blank = false → info.var_accel_flags = FB_ACCEL_NONE →
        (info.fix_visual = FB_VISUAL_PSEUDOCOLOR ∨ info.fix_visual = FB_VISUAL_DIRECTCOLOR) →
        blank ≠ 0 →
        (fbcon_blank vc info blank).1 =
          [FbCall.fb_set_cmap
            { start := 0, len := 16, red := List.replicate 16 (some 0),
              green := List.replicate 16 (some 0), blue := List.replicate 16 (some 0) } 1]) ∧
      (info.has_fb_blank = false → info.var_accel_flags = FB_ACCEL_NONE →
        (¬ (info.fix_visual = FB_VISUAL_PSEUDOCOLOR ∨
            info.fix_visual = FB_VISUAL_DIRECTCOLOR) ∨ blank = 0) →
        (fbcon_blank vc info blank).1 = []) := by
  refine ⟨?_, ?_, ?_, ?_, ?_, ?_⟩
  · unfold fbcon_blank
    split
    · rfl
    · split
      · rfl
      · split <;> rfl
  · unfold fbcon_blank
    split
    · exact le_refl _
    · split
      · exact le_refl _
      · split
        · exact le_refl _
        · exact Nat.zero_le _
  · intro h
    simp only [fbcon_blank, h, if_true]
  · intro h ha
    simp [fbcon_blank, h, ha]
  · intro h ha hv hb
    have hc : (info.fix_visual = FB_VISUAL_PSEUDOCOLOR ∨
        info.fix_visual = FB_VISUAL_DIRECTCOLOR) ∧ blank ≠ 0 := ⟨hv, hb⟩
    unfold fbcon_blank
    rw [if_neg (by rw [h]; exact Bool.false_ne_true), if_neg (by rw [ha]; exact fun hn => hn rfl),
      if_pos hc]
  · intro h ha hv
    have hc : ¬ ((info.fix_visual = FB_VISUAL_PSEUDOCOLOR ∨
        info.fix_visual = FB_VISUAL_DIRECTCOLOR) ∧ blank ≠ 0) := by
      intro ⟨h1, h2⟩
      cases hv with
      | inl hv => exact hv h1
      | inr hv => exact h2 hv
    unfold fbcon_blank
    rw [if_neg (by rw [h]; exact Bool.false_ne_true), if_neg (by rw [ha]; exact fun hn => hn rfl),
      if_neg hc]

/-- C14 at a concrete input: blanking the unaccelerated indexed 640x400
surface, which has no `fb_blank`, sets a colour map of 16 black slots. -/
theorem fbcon_blank_one_command_witness :
    (fbcon_blank vc_8x16 info_640x400 1).1 =
      [FbCall.fb_set_cmap
        { start := 0, len := 16, red := List.replicate 16 (some 0),
          green := List.replicate 16 (some 0), blue := List.replicate 16 (some 0) } 1] :=
  (fbcon_blank_one_command vc_8x16 info_640x400 1).2.2.2.2.1 rfl rfl (Or.inl rfl) (by decide)

/-- The rectangle copy of `fbcon_bmove` in the arithmetic of C `int`s. -/
theorem fbcon_bmove_eq (vc : VcData) (info : FbInfo) (sy sx dy dx height width : Int) :
    fbcon_bmove vc info sy sx dy dx height width =
      [FbCall.fb_copyarea (s32 (sx * vc.vc_font.width)) (s32 (sy * vc.vc_font.height))
        (s32 (width * vc.vc_font.width)) (s32 (height * vc.vc_font.height))
        (s32 (dx * vc.vc_font.width)) (s32 (dy * vc.vc_font.height))] := by
  simp only [fbcon_bmove, s32_u32, u32_mul_left]

/-- C17: `fbcon_bmove` issues exactly one `fb_copyarea` and no other call,
with source `(sx*fw, sy*fh)`, extent `(width*fw, height*fh)` (no row added to
the height) and destination `(dx*fw, dy*fh)`: in the 32-bit arithmetic of C
for every input, and as exact integers whenever the six products fit an
`int`. -/
theorem fbcon_bmove_single_copy (vc : VcData) (info : FbInfo)
    (sy sx dy dx height width : Int) :
    fbcon_bmove vc info sy sx dy dx height width =
        [FbCall.fb_copyarea (s32 (sx * vc.vc_font.width)) (s32 (sy * vc.vc_font.height))
          (s32 (width * vc.vc_font.width)) (s32 (height * vc.vc_font.height))
          (s32 (dx * vc.vc_font.width)) (s32 (dy * vc.vc_font.height))] ∧
      (int_range (sx * vc.vc_font.width) → int_range (sy * vc.vc_font.height) →
        int_range (width * vc.vc_font.width) → int_range (height * vc.vc_font.height) →
        int_range (dx * vc.vc_font.width) → int_range (dy * vc.vc_font.height) →
        fbcon_bmove vc info sy sx dy dx height width =
          [FbCall.fb_copyarea (sx * vc.vc_font.width) (sy * vc.vc_font.height)
            (width * vc.vc_font.width) (height * vc.vc_font.height)
            (dx * vc.vc_font.width) (dy * vc.vc_font.height)]) := by
  refine ⟨fbcon_bmove_eq vc info sy sx dy dx height width, ?_⟩
  intro h1 h2 h3 h4 h5 h6
  rw [fbcon_bmove_eq, s32_of_int_range h1, s32_of_int_range h2, s32_of_int_range h3,
    s32_of_int_range h4, s32_of_int_range h5, s32_of_int_range h6]

/-- C17 at a concrete input: moving 24 rows of 80 columns from row 1 to row 0
on the 8x16 console copies 640x384 pixels from y = 16 to y = 0. -/
theorem fbcon_bmove_single_copy_witness :
    fbcon_bmove vc_8x16 info_640x400 1 0 0 0 24 80 = [FbCall.fb_copyarea 0 16 640 384 0 0] :=
  (fbcon_bmove_single_copy vc_8x16 info_640x400 1 0 0 0 24 80).2
    (by decide) (by decide) (by decide) (by decide) (by decide) (by decide)

/-- C18: `fbcon_font_op` returns `-ENOSYS` for every request, the set, get,
set-default and copy operations included, issues no backend call and leaves
the console as it was. -/
theorem fbcon_font_op_not_supported (vc : VcData) (op : ConsoleFontOp) :
    (fbcon_font_op vc op).ret = -ENOSYS ∧
      (fbcon_font_op vc op).vc = vc ∧
      (fbcon_font_op vc op).calls = [] ∧
      (fbcon_font_op vc { op with op := KD_FONT_OP_SET }).ret = -ENOSYS ∧
      (fbcon_font_op vc { op with op := KD_FONT_OP_GET }).ret = -ENOSYS ∧
      (fbcon_font_op vc { op with op := KD_FONT_OP_SET_DEFAULT }).ret = -ENOSYS ∧
      (fbcon_font_op vc { op with op := KD_FONT_OP_COPY }).ret = -ENOSYS :=
  ⟨rfl, rfl, rfl, rfl, rfl, rfl, rfl⟩

/-- C19: `fbcon_resize` returns 0 for every requested rows and cols, issues no
backend call and leaves the console (its rows, columns and font among the
rest) as it was. -/
theorem fbcon_resize_accepts_without_relayout (vc : VcData) (rows cols : Int) :
    (fbcon_resize vc rows cols).ret = 0 ∧
      (fbcon_resize vc rows cols).calls = [] ∧
      (fbcon_resize vc rows cols).vc = vc ∧
      (fbcon_resize vc rows cols).vc.vc_rows = vc.vc_rows ∧
      (fbcon_resize vc rows cols).vc.vc_cols = vc.vc_cols ∧
      (fbcon_resize vc rows cols).vc.vc_font = vc.vc_font :=
  ⟨rfl, rfl, rfl, rfl, rfl, rfl⟩

/-! ## Geometry -/

theorem ediv_of_cell (fw col px : Int) (hw : 0 < fw) (h1 : col * fw ≤ px)
    (h2 : px < col * fw + fw) : px / fw = col := by
  have h := (Int.ediv_emod_unique (a := px) (r := px - col * fw) (q := col) hw).mpr
    ⟨by ring, by omega, by omega⟩
  exact h.1

/-- C15: for every cell size `fw, fh > 0` and every `(row, col)`, the pixel
origin `(x, y) = (col*fw, row*fh)`, which is the origin `fbcon_putc` hands to
the blit whenever the two products are `unsigned int` values, divides back to
`(row, col)`; so does every pixel of the cell's `fw x fh` rectangle; hence a
pixel lies in the rectangle of one cell only. -/
theorem cell_pixel_round_trip (m : AttrMacros) (vc : VcData) (info : FbInfo)
    (c row col : Int) (hw : 0 < vc.vc_font.width) (hh : 0 < vc.vc_font.height) :
    (uint_range (col * vc.vc_font.width) → uint_range (row * vc.vc_font.height) →
        ∃ image : FbImage,
          fbcon_putc m vc info c row col = [FbCall.fb_imageblit image] ∧
          (image.x, image.y) = cellToPixel vc.vc_font.width vc.vc_font.height row col) ∧
      cellToPixel vc.vc_font.width vc.vc_font.height row col =
        (col * vc.vc_font.width, row * vc.vc_font.height) ∧
      pixelToCell vc.vc_font.width vc.vc_font.height
          (cellToPixel vc.vc_font.width vc.vc_font.height row col).1
          (cellToPixel vc.vc_font.width vc.vc_font.height row col).2 = (row, col) ∧
      (∀ px py : Int,
        col * vc.vc_font.width ≤ px → px < col * vc.vc_font.width + vc.vc_font.width →
        row * vc.vc_font.height ≤ py → py < row * vc.vc_font.height + vc.vc_font.height →
        pixelToCell vc.vc_font.width vc.vc_font.height px py = (row, col)) ∧
      (∀ row2 col2 px py : Int,
        col * vc.vc_font.width ≤ px → px < col * vc.vc_font.width + vc.vc_font.width →
        row * vc.vc_font.height ≤ py → py < row * vc.vc_font.height + vc.vc_font.height →
        col2 * vc.vc_font.width ≤ px → px < col2 * vc.vc_font.width + vc.vc_font.width →
        row2 * vc.vc_font.height ≤ py → py < row2 * vc.vc_font.height + vc.vc_font.height →
        (row2, col2) = (row, col)) := by
  have hcell : ∀ (r k px py : Int),
      k * vc.vc_font.width ≤ px → px < k * vc.vc_font.width + vc.vc_font.width →
      r * vc.vc_font.height ≤ py → py < r * vc.vc_font.height + vc.vc_font.height →
      pixelToCell vc.vc_font.width vc.vc_font.height px py = (r, k) := by
    intro r k px py h1 h2 h3 h4
    unfold pixelToCell
    rw [ediv_of_cell _ k px hw h1 h2, ediv_of_cell _ r py hh h3 h4]
  refine ⟨?_, rfl, ?_, hcell row col, ?_⟩
  · intro hx hy
    refine ⟨_, fbcon_putc_eq m vc info c row col, ?_⟩
    simp only [cellToPixel, u32_of_uint_range hx, u32_of_uint_range hy]
  · exact hcell row col _ _ (le_refl _) (by unfold cellToPixel; simp only; omega) (le_refl _)
      (by unfold cellToPixel; simp only; omega)
  · intro row2 col2 px py h1 h2 h3 h4 h5 h6 h7 h8
    rw [← hcell row col px py h1 h2 h3 h4, ← hcell row2 col2 px py h5 h6 h7 h8]

/-- C15 at a concrete input: the glyph at row 3, column 5 of the 8x16 console
is blitted at the pixel origin (40, 48), which divides back to (3, 5). -/
theorem cell_pixel_round_trip_witness :
    (∃ image : FbImage,
        fbcon_putc attr_16 vc_8x16 info_640x400 0x0741 3 5 = [FbCall.fb_imageblit image] ∧
        (image.x, image.y) = (40, 48)) ∧
      pixelToCell 8 16 40 48 = (3, 5) ∧ pixelToCell 8 16 47 63 = (3, 5) := by
  have h := cell_pixel_round_trip attr_16 vc_8x16 info_640x400 0x0741 3 5 (by decide)
    (by decide)
  refine ⟨?_, ?_, ?_⟩
  · obtain ⟨image, h1, h2⟩ := h.1 (by decide) (by decide)
    exact ⟨image, h1, by rw [h2]; decide⟩
  · exact h.2.2.2.1 40 48 (by decide) (by decide) (by decide) (by decide)
  · exact h.2.2.2.1 47 63 (by decide) (by decide) (by decide) (by decide)

/-- C16: on a console with `cols = xres / fw` and `rows = yres / fh` and the
cursor at a grid position `vc_x < cols`, `vc_y < rows`, a `CM_MOVE` or
`CM_DRAW` call hands the backend at most one cursor, the one at position
`(vc_x*fw, vc_y*fh)` with size `(fw, fh)` (it hands none only when it returns
at the flicker guard), and that rectangle lies inside the surface:
`pos.x + size.x <= xres` and `pos.y + size.y <= yres`. -/
theorem fbcon_cursor_rect_inside (vc : VcData) (info : FbInfo) (mode cursor_enable : Int)
    (hmode : mode = CM_MOVE ∨ mode = CM_DRAW)
    (hw : 0 < vc.vc_font.width) (hh : 0 < vc.vc_font.height)
    (hxres : info.var_xres < 4294967296) (hyres : info.var_yres < 4294967296)
    (hcols : vc.vc_cols = info.var_xres / vc.vc_font.width)
    (hrows : vc.vc_rows = info.var_yres / vc.vc_font.height)
    (hx0 : 0 ≤ vc.vc_x) (hx : vc.vc_x < vc.vc_cols)
    (hy0 : 0 ≤ vc.vc_y) (hy : vc.vc_y < vc.vc_rows) :
    (fbcon_cursor vc info mode cursor_enable).calls =
        (if info.cursor.pos_x = vc.vc_x * vc.vc_font.width ∧
            info.cursor.pos_y = vc.vc_y * vc.vc_font.height ∧ cursor_enable ≠ 0
          then []
          else [FbCall.fb_cursor
            { set := FB_CUR_SETALL, enable := 1,
              pos_x := vc.vc_x * vc.vc_font.width, pos_y := vc.vc_y * vc.vc_font.height,
              size_x := vc.vc_font.width, size_y := vc.vc_font.height }]) ∧
      vc.vc_x * vc.vc_font.width + vc.vc_font.width ≤ info.var_xres ∧
      vc.vc_y * vc.vc_font.height + vc.vc_font.height ≤ info.var_yres ∧
      (∀ call : FbCall, call ∈ (fbcon_cursor vc info mode cursor_enable).calls →
        ∃ cur : FbCursor, call = FbCall.fb_cursor cur ∧
          cur.pos_x = vc.vc_x * vc.vc_font.width ∧ cur.pos_y = vc.vc_y * vc.vc_font.height ∧
          cur.size_x = vc.vc_font.width ∧ cur.size_y = vc.vc_font.height ∧
          cur.pos_x + cur.size_x ≤ info.var_xres ∧ cur.pos_y + cur.size_y ≤ info.var_yres) := by
  have bx : vc.vc_x * vc.vc_font.width + vc.vc_font.width ≤ info.var_xres := by
    have h1 : vc.vc_x + 1 ≤ info.var_xres / vc.vc_font.width := by omega
    have h2 := (Int.le_ediv_iff_mul_le hw).mp h1
    linarith
  have by1 : vc.vc_y * vc.vc_font.height + vc.vc_font.height ≤ info.var_yres := by
    have h1 : vc.vc_y + 1 ≤ info.var_yres / vc.vc_font.height := by omega
    have h2 := (Int.le_ediv_iff_mul_le hh).mp h1
    linarith
  have px0 : 0 ≤ vc.vc_x * vc.vc_font.width := Int.mul_nonneg hx0 (le_of_lt hw)
  have py0 : 0 ≤ vc.vc_y * vc.vc_font.height := Int.mul_nonneg hy0 (le_of_lt hh)
  have ex : u32 (u32 vc.vc_x * vc.vc_font.width) = vc.vc_x * vc.vc_font.width := by
    rw [u32_mul_left]
    exact u32_of_uint_range ⟨px0, by omega⟩
  have ey : u32 (u32 vc.vc_y * vc.vc_font.height) = vc.vc_y * vc.vc_font.height := by
    rw [u32_mul_left]
    exact u32_of_uint_range ⟨py0, by omega⟩
  have hne : mode ≠ CM_ERASE := by
    cases hmode with
    | inl h => rw [h]; decide
    | inr h => rw [h]; decide
  have hcalls : (fbcon_cursor vc info mode cursor_enable).calls =
      (if info.cursor.pos_x = vc.vc_x * vc.vc_font.width ∧
          info.cursor.pos_y = vc.vc_y * vc.vc_font.height ∧ cursor_enable ≠ 0
        then []
        else [FbCall.fb_cursor
          { set := FB_CUR_SETALL, enable := 1,
            pos_x := vc.vc_x * vc.vc_font.width, pos_y := vc.vc_y * vc.vc_font.height,
            size_x := vc.vc_font.width, size_y := vc.vc_font.height }]) := by
    unfold fbcon_cursor
    simp only [ex, ey, hne, if_neg, hmode, if_true, decide_False]
    by_cases hg : info.cursor.pos_x = vc.vc_x * vc.vc_font.width ∧
        info.cursor.pos_y = vc.vc_y * vc.vc_font.height ∧ cursor_enable ≠ 0
    · rw [if_pos hg]
      obtain ⟨g1, g2, g3⟩ := hg
      simp [g1, g2, g3]
    · rw [if_neg hg]
      by_cases g1 : info.cursor.pos_x = vc.vc_x * vc.vc_font.width
      · by_cases g2 : info.cursor.pos_y = vc.vc_y * vc.vc_font.height
        · have g3 : cursor_enable = 0 := by
            by_contra hne2
            exact hg ⟨g1, g2, hne2⟩
          simp [g1, g2, g3]
        · simp [g2]
      · simp [g1]
  refine ⟨hcalls, bx, by1, ?_⟩
  intro call hcall
  rw [hcalls] at hcall
  split at hcall
  · cases hcall
  · rw [List.mem_singleton] at hcall
    exact ⟨_, hcall, rfl, rfl, rfl, rfl, bx, by1⟩

/-- C16 at a concrete input: drawing the cursor at the last cell (79, 24) of
the 80x25 console hands the backend the rectangle at (632, 384) of size 8x16,
which ends at the surface's edge (640, 400). -/
theorem fbcon_cursor_rect_inside_witness :
    (fbcon_cursor { vc_8x16 with vc_x := 79, vc_y := 24 } info_640x400 CM_DRAW 0).calls =
        [FbCall.fb_cursor
          { set := FB_CUR_SETALL, enable := 1, pos_x := 632, pos_y := 384,
            size_x := 8, size_y := 16 }] ∧
      (632 : Int) + 8 ≤ 640 ∧ (384 : Int) + 16 ≤ 400 := by
  have h := fbcon_cursor_rect_inside { vc_8x16 with vc_x := 79, vc_y := 24 } info_640x400
    CM_DRAW 0 (Or.inr rfl) (by decide) (by decide) (by decide) (by decide) (by decide)
    (by decide) (by decide) (by decide) (by decide) (by decide)
  refine ⟨?_, by decide, by decide⟩
  rw [h.1]
  decide

/-! ## Multi-glyph against single-glyph drawing -/

/-- C20, as stated, fails: for the two words `A` in colour 7 and `B` in colour
1, `fbcon_putcs` draws both glyphs in colour 7, the colour of the first word,
while `fbcon_putc` draws `B` in colour 1. -/
theorem fbcon_putcs_ne_putc_concat :
    fbcon_putcs attr_16 vc_8x16 info_640x400 words_two_attributes 2 0 0 ≠
      (List.range 2).flatMap (fun (i : Nat) =>
        fbcon_putc attr_16 vc_8x16 info_640x400 (words_two_attributes i) 0 (0 + (i : Int))) := by
  decide

/-- C20, amended: for every `count >= 0`, the blits of `fbcon_putcs` are, in
order, the blits of `fbcon_putc(s[i], ypos, xpos + i)` for `i = 0..count-1`
with both colours replaced by those resolved from the attribute of the first
word `s[0]`; so the two sequences are equal whenever every word of the run
carries the foreground and background index of `s[0]`. -/
theorem fbcon_putcs_eq_putc_run (m : AttrMacros) (vc : VcData) (info : FbInfo)
    (s : Nat → Int) (count : Nat) (ypos xpos : Int) (hcount : (count : Int) < 2147483648) :
    (∀ i : Nat, i < count →
        ∃ image : FbImage,
          fbcon_putc m vc info (u16 (s i)) ypos (xpos + (i : Int)) =
            [FbCall.fb_imageblit image] ∧
          (fbcon_putcs m vc info s count ypos xpos)[i]? =
            some (FbCall.fb_imageblit
              { image with
                fg_color := resolve info (m.attr_fgcol vc (u16 (s 0)))
                bg_color := resolve info (m.attr_bgcol vc (u16 (s 0))) })) ∧
      (fbcon_putcs m vc info s count ypos xpos).length = count ∧
      ((∀ i : Nat, i < count →
          m.attr_fgcol vc (u16 (s i)) = m.attr_fgcol vc (u16 (s 0)) ∧
          m.attr_bgcol vc (u16 (s i)) = m.attr_bgcol vc (u16 (s 0))) →
        fbcon_putcs m vc info s count ypos xpos =
          (List.range count).flatMap (fun (i : Nat) =>
            fbcon_putc m vc info (u16 (s i)) ypos (xpos + (i : Int)))) := by
  refine ⟨?_, ?_, ?_⟩
  · intro i hi
    refine ⟨_, fbcon_putc_eq m vc info (u16 (s i)) ypos (xpos + (i : Int)), ?_⟩
    rw [fbcon_putcs_eq m vc info s count ypos xpos hcount, List.getElem?_map,
      List.getElem?_range hi]
    rfl
  · rw [fbcon_putcs_eq m vc info s count ypos xpos hcount, List.length_map, List.length_range]
  · intro hattr
    rw [fbcon_putcs_eq m vc info s count ypos xpos hcount]
    have hflat : ∀ (l : List Nat) (f : Nat → FbCall),
        l.flatMap (fun (i : Nat) => [f i]) = l.map f := by
      intro l f
      induction l with
      | nil => rfl
      | cons a t ih => simp [List.flatMap_cons, ih]
    have hputc : (fun (i : Nat) => fbcon_putc m vc info (u16 (s i)) ypos (xpos + (i : Int))) =
        (fun (i : Nat) => [FbCall.fb_imageblit
          { x := u32 ((xpos + (i : Int)) * vc.vc_font.width)
            y := u32 (ypos * vc.vc_font.height)
            width := vc.vc_font.width
            height := vc.vc_font.height
            fg_color := resolve info (m.attr_fgcol vc (u16 (s i)))
            bg_color := resolve info (m.attr_bgcol vc (u16 (s i)))
            depth := 1
            data := u32 (band (u16 (s i))
                (if vc.vc_font.charcount ≤ 256 then 0xff else 0x1ff) *
              vc.vc_font.height * (u32 (vc.vc_font.width + 7) / 8)) }]) := by
      funext i
      exact fbcon_putc_eq m vc info (u16 (s i)) ypos (xpos + (i : Int))
    rw [hputc, hflat]
    apply List.map_congr_left
    intro i hi
    have hlt : i < count := List.mem_range.mp hi
    rw [(hattr i hlt).1, (hattr i hlt).2]

/-- C20 amended, at a concrete input: the run `A`, `B`, `C` in colour 7 is
drawn by `fbcon_putcs` as by three calls of `fbcon_putc`. -/
theorem fbcon_putcs_eq_putc_run_witness :
    fbcon_putcs attr_16 vc_8x16 info_640x400 words_from_A (3 : Nat) 1 2 =
      (List.range 3).flatMap (fun (i : Nat) =>
        fbcon_putc attr_16 vc_8x16 info_640x400 (u16 (words_from_A i)) 1 (2 + (i : Int))) :=
  (fbcon_putcs_eq_putc_run attr_16 vc_8x16 info_640x400 words_from_A 3 1 2 (by decide)).2.2
    (by decide)

/-! ## The filled rectangle and the grid -/

/-- C21, as stated, fails: clearing the whole 80x25 grid of the 640x400
console, `fbcon_clear(sy=0, sx=0, height=25, width=80)`, is a request within
the grid (`sy + height <= rows`, `sx + width <= cols`), and the rectangle
filled is 416 pixels high, 16 more than the grid's 400. -/
theorem fbcon_clear_full_grid_overruns :
    vc_8x16.vc_cols = info_640x400.var_xres / vc_8x16.vc_font.width ∧
      vc_8x16.vc_rows = info_640x400.var_yres / vc_8x16.vc_font.height ∧
      (0 : Int) + 25 ≤ vc_8x16.vc_rows ∧ (0 : Int) + 80 ≤ vc_8x16.vc_cols ∧
      fbcon_clear attr_16 vc_8x16 info_640x400 0 0 25 80 =
        [FbCall.fb_fillrect 0 0 640 416 0 ROP_COPY] ∧
      ¬ ((0 : Int) + 416 ≤ vc_8x16.vc_rows * vc_8x16.vc_font.height) := by
  decide

/-- C21, amended: on a console with `cols = xres / fw` and `rows = yres / fh`
(`fw, fh > 0`, resolutions that an `int` holds), for every clear request with
`sy, sx, height, width >= 0`, `sy + height + 1 <= rows` and
`sx + width <= cols`, the rectangle `fbcon_clear` fills starts at a
non-negative origin and lies within the grid's pixel area:
`x + w <= cols*fw` and `y + h <= rows*fh`, which is within the surface. -/
theorem fbcon_clear_inside_grid (m : AttrMacros) (vc : VcData) (info : FbInfo)
    (sy sx height width : Int)
    (hw : 0 < vc.vc_font.width) (hh : 0 < vc.vc_font.height)
    (hxres : info.var_xres < 2147483648) (hyres : info.var_yres < 2147483648)
    (hcols : vc.vc_cols = info.var_xres / vc.vc_font.width)
    (hrows : vc.vc_rows = info.var_yres / vc.vc_font.height)
    (hsy : 0 ≤ sy) (hsx : 0 ≤ sx) (hheight : 0 ≤ height) (hwidth : 0 ≤ width)
    (hrow : sy + height + 1 ≤ vc.vc_rows) (hcol : sx + width ≤ vc.vc_cols) :
    fbcon_clear m vc info sy sx height width =
        [FbCall.fb_fillrect (sx * vc.vc_font.width) (sy * vc.vc_font.height)
          (width * vc.vc_font.width) ((height + 1) * vc.vc_font.height)
          (resolve info (m.attr_bgcol_ec vc)) ROP_COPY] ∧
      0 ≤ sx * vc.vc_font.width ∧ 0 ≤ sy * vc.vc_font.height ∧
      sx * vc.vc_font.width + width * vc.vc_font.width ≤ vc.vc_cols * vc.vc_font.width ∧
      sy * vc.vc_font.height + (height + 1) * vc.vc_font.height ≤
        vc.vc_rows * vc.vc_font.height ∧
      vc.vc_cols * vc.vc_font.width ≤ info.var_xres ∧
      vc.vc_rows * vc.vc_font.height ≤ info.var_yres := by
  have cx : vc.vc_cols * vc.vc_font.width ≤ info.var_xres := by
    rw [hcols]; exact Int.ediv_mul_le _ (by omega)
  have cy : vc.vc_rows * vc.vc_font.height ≤ info.var_yres := by
    rw [hrows]; exact Int.ediv_mul_le _ (by omega)
  have x0 : 0 ≤ sx * vc.vc_font.width := Int.mul_nonneg hsx (le_of_lt hw)
  have y0 : 0 ≤ sy * vc.vc_font.height := Int.mul_nonneg hsy (le_of_lt hh)
  have w0 : 0 ≤ width * vc.vc_font.width := Int.mul_nonneg hwidth (le_of_lt hw)
  have h0 : 0 ≤ (height + 1) * vc.vc_font.height :=
    Int.mul_nonneg (by omega) (le_of_lt hh)
  have bx : sx * vc.vc_font.width + width * vc.vc_font.width ≤
      vc.vc_cols * vc.vc_font.width := by
    rw [← add_mul]
    exact mul_le_mul_of_nonneg_right hcol (le_of_lt hw)
  have by1 : sy * vc.vc_font.height + (height + 1) * vc.vc_font.height ≤
      vc.vc_rows * vc.vc_font.height := by
    rw [← add_mul]
    exact mul_le_mul_of_nonneg_right (by omega) (le_of_lt hh)
  refine ⟨?_, x0, y0, bx, by1, cx, cy⟩
  rw [fbcon_clear_eq,
    s32_of_int_range ⟨by omega, by linarith⟩, s32_of_int_range ⟨by omega, by linarith⟩,
    s32_of_int_range ⟨by omega, by linarith⟩, s32_of_int_range ⟨by omega, by linarith⟩]

/-- C21 amended, at a concrete input: clearing the whole grid of the 640x400
console with the inclusive height 24 fills exactly the 640x400 pixels. -/
theorem fbcon_clear_inside_grid_witness :
    fbcon_clear attr_16 vc_8x16 info_640x400 0 0 24 80 =
      [FbCall.fb_fillrect 0 0 640 400 0 ROP_COPY] := by
  have h := (fbcon_clear_inside_grid attr_16 vc_8x16 info_640x400 0 0 24 80 (by decide)
    (by decide) (by decide) (by decide) (by decide) (by decide) (by decide) (by decide)
    (by decide) (by decide) (by decide) (by decide)).1
  rw [h]
  decide

/-! ## The cursor band and the cell -/

/-- A `CM_CHANGE` call either returns at the flicker guard, computing no band,
or computes the band of the `CM_CHANGE` case. -/
theorem fbcon_cursor_change_call (vc : VcData) (info : FbInfo) (cursor_enable : Int) :
    (fbcon_cursor vc info CM_CHANGE cursor_enable).band = none ∨
      (fbcon_cursor vc info CM_CHANGE cursor_enable).band = some (fbcon_cursor_change vc) := by
  have e1 : CM_CHANGE ≠ CM_ERASE := by decide
  have e2 : ¬ (CM_CHANGE = CM_MOVE ∨ CM_CHANGE = CM_DRAW) := by decide
  unfold fbcon_cursor
  simp only [if_neg e1, if_neg e2, if_true]
  split
  · exact Or.inl rfl
  · exact Or.inr rfl

/-- The band of the `CM_CHANGE` case for a cell height of at least 2 that an
`int` holds (and, for the lower-third shape, twice its bottom line too). -/
theorem fbcon_cursor_change_bounds (vc : VcData)
    (h2 : 2 ≤ vc.vc_font.height) (h31 : vc.vc_font.height < 2147483648)
    (hlt : band vc.vc_cursor_type CUR_HWMASK = CUR_LOWER_THIRD →
      2 * spec_band_bottom vc.vc_font.height < 2147483648) :
    0 ≤ (fbcon_cursor_change vc).1 ∧
      (fbcon_cursor_change vc).1 ≤ (fbcon_cursor_change vc).2 ∧
      (fbcon_cursor_change vc).2 ≤ vc.vc_font.height := by
  have hs : s32 vc.vc_font.height = vc.vc_font.height := s32_of_int_range ⟨by omega, h31⟩
  have hb : (if s32 vc.vc_font.height ≥ 10 then s32 (s32 vc.vc_font.height - 1)
      else s32 vc.vc_font.height) = spec_band_bottom vc.vc_font.height := by
    rw [hs]
    unfold spec_band_bottom
    by_cases h : vc.vc_font.height ≥ 10
    · rw [if_pos h, if_pos h]
      exact s32_of_int_range ⟨by omega, by omega⟩
    · rw [if_neg h, if_neg h]
  have hb2 : 2 ≤ spec_band_bottom vc.vc_font.height := by
    unfold spec_band_bottom; split <;> omega
  have hbh : spec_band_bottom vc.vc_font.height ≤ vc.vc_font.height := by
    unfold spec_band_bottom; split <;> omega
  generalize spec_band_bottom vc.vc_font.height = b at hb hb2 hbh hlt
  simp only [fbcon_cursor_change, hb]
  split_ifs with c1 c2 c3 c4 c5 <;> dsimp only
  · exact ⟨by omega, le_refl _, hbh⟩
  · rw [hs]
    exact ⟨le_refl _, by omega, le_refl _⟩
  · rw [Int.tdiv_eq_ediv (by omega) (by norm_num)]
    exact ⟨by omega, by omega, hbh⟩
  · have hr : s32 (b * 2) = b * 2 :=
      s32_of_int_range ⟨by omega, by have := hlt c4; omega⟩
    rw [hr, Int.tdiv_eq_ediv (by omega) (by norm_num)]
    exact ⟨by omega, by omega, hbh⟩
  · rw [Int.tdiv_eq_ediv (by omega) (by norm_num)]
    exact ⟨by omega, by omega, hbh⟩
  · rw [s32_of_int_range ⟨by omega, by omega⟩]
    exact ⟨by omega, by omega, hbh⟩

/-- C22: for every cursor shape and every cell height `h >= 2` (that an `int`
holds; for the lower-third shape twice the bottom line too), the band
`(top, bottom)` of the `CM_CHANGE` case satisfies `0 <= top <= bottom <= h`,
and so does the band of every `CM_CHANGE` call that computes one.  For
`h = 1` the underline shape gives the top scanline -1. -/
theorem fbcon_cursor_band_inside_cell (vc : VcData) (info : FbInfo) (cursor_enable : Int)
    (h2 : 2 ≤ vc.vc_font.height) (h31 : vc.vc_font.height < 2147483648)
    (hlt : band vc.vc_cursor_type CUR_HWMASK = CUR_LOWER_THIRD →
      2 * spec_band_bottom vc.vc_font.height < 2147483648) :
    (0 ≤ (fbcon_cursor_change vc).1 ∧
        (fbcon_cursor_change vc).1 ≤ (fbcon_cursor_change vc).2 ∧
        (fbcon_cursor_change vc).2 ≤ vc.vc_font.height) ∧
      (∀ tb : Int × Int, (fbcon_cursor vc info CM_CHANGE cursor_enable).band = some tb →
        0 ≤ tb.1 ∧ tb.1 ≤ tb.2 ∧ tb.2 ≤ vc.vc_font.height) ∧
      fbcon_cursor_change
          { vc with
            vc_font := { vc.vc_font with height := 1 }
            vc_cursor_type := CUR_UNDERLINE } = (-1, 1) := by
  have hbnd := fbcon_cursor_change_bounds vc h2 h31 hlt
  refine ⟨hbnd, ?_, ?_⟩
  · intro tb htb
    cases fbcon_cursor_change_call vc info cursor_enable with
    | inl hn => rw [hn] at htb; cases htb
    | inr hsome =>
      rw [hsome] at htb
      cases htb
      exact hbnd
  · simp only [fbcon_cursor_change]
    decide

/-- C22 at a concrete input: the 8x16 console with the underline shape has the
band (13, 15), inside the 16 scanlines of the cell. -/
theorem fbcon_cursor_band_inside_cell_witness :
    fbcon_cursor_change vc_8x16 = (13, 15) ∧
      (0 : Int) ≤ (fbcon_cursor_change vc_8x16).1 ∧
      (fbcon_cursor_change vc_8x16).1 ≤ (fbcon_cursor_change vc_8x16).2 ∧
      (fbcon_cursor_change vc_8x16).2 ≤ 16 :=
  ⟨by decide,
    (fbcon_cursor_band_inside_cell vc_8x16 info_640x400 0 (by decide) (by decide)
      (by decide)).1⟩

/-! ## XT keyboard -/

theorem land_key (d : Nat) : Nat.land d XTKBD_KEY = d % 128 :=
  Nat.and_pow_two_sub_one_eq_mod d 7

set_option maxRecDepth 8192 in
theorem land_release (d : Nat) (hd : d < 256) :
    Nat.land d XTKBD_RELEASE = if d < 128 then 0 else 128 := by
  revert d
  decide

set_option maxRecDepth 8192 in
theorem lor_release (d : Nat) (hd : d < 128) : Nat.lor d XTKBD_RELEASE = d + 128 := by
  revert d
  decide

/-- What `xtkbd_interrupt` does with a byte that is not one of the two filtered
prefixes. -/
theorem xtkbd_interrupt_eq (keycode : Nat → Nat) (d : Nat) (hd : d < 256)
    (h0 : d ≠ XTKBD_EMUL0) (h1 : d ≠ XTKBD_EMUL1) :
    xtkbd_interrupt keycode d =
      if keycode (d % 128) ≠ 0 then
        [XtkbdCall.input_report_key (keycode (d % 128)) (if d < 128 then 1 else 0)]
      else [XtkbdCall.printk_unknown_key (d % 128) (decide (¬ d < 128))] := by
  have hf : ¬ (d = XTKBD_EMUL0 ∨ d = XTKBD_EMUL1) := by
    intro h
    cases h with
    | inl h => exact h0 h
    | inr h => exact h1 h
  unfold xtkbd_interrupt
  rw [if_neg hf, land_key, land_release d hd]
  by_cases hlt : d < 128
  · simp [hlt]
  · simp [hlt]

/-- C23: for every byte `d`, `xtkbd_interrupt` reports at most one key event:
none for `0xe0` and `0xe1`; otherwise, with `k = keycode[d & 0x7f]`, exactly
the event (key `k`, pressed iff bit `0x80` of `d` is clear) when `k != 0` and
none when `k = 0`.  So a scancode `d < 0x80` with a key and its release byte
`d | 0x80` report the same key, pressed and then released, unless the release
byte is `0xe0` or `0xe1`; in the default table the scancodes `0x60` and `0x61`
have no key, so no release byte of a key of that table is filtered. -/
theorem xtkbd_interrupt_reports (keycode : Nat → Nat) (d : Nat) (hd : d < 256) :
    (key_events (xtkbd_interrupt keycode d)).length ≤ 1 ∧
      (d = 0xe0 ∨ d = 0xe1 → xtkbd_interrupt keycode d = []) ∧
      (d ≠ 0xe0 → d ≠ 0xe1 → keycode (Nat.land d 0x7f) ≠ 0 →
        key_events (xtkbd_interrupt keycode d) =
          [(keycode (Nat.land d 0x7f), if Nat.land d 0x80 = 0 then 1 else 0)]) ∧
      (d ≠ 0xe0 → d ≠ 0xe1 → keycode (Nat.land d 0x7f) = 0 →
        key_events (xtkbd_interrupt keycode d) = []) ∧
      Nat.land d 0x7f = d % 128 ∧ (Nat.land d 0x80 = 0 ↔ d < 128) ∧
      (d < 128 → keycode d ≠ 0 → Nat.lor d 0x80 ≠ 0xe0 → Nat.lor d 0x80 ≠ 0xe1 →
        key_events (xtkbd_interrupt keycode d) = [(keycode d, 1)] ∧
        key_events (xtkbd_interrupt keycode (Nat.lor d 0x80)) = [(keycode d, 0)]) ∧
      (d < 128 → xtkbd_keycode d ≠ 0 →
        Nat.lor d 0x80 ≠ 0xe0 ∧ Nat.lor d 0x80 ≠ 0xe1 ∧
        key_events (xtkbd_interrupt xtkbd_keycode d) = [(xtkbd_keycode d, 1)] ∧
        key_events (xtkbd_interrupt xtkbd_keycode (Nat.lor d 0x80)) =
          [(xtkbd_keycode d, 0)]) := by
  have hk : Nat.land d 0x7f = d % 128 := land_key d
  have hr : Nat.land d 0x80 = if d < 128 then 0 else 128 := land_release d hd
  have hr0 : Nat.land d 0x80 = 0 ↔ d < 128 := by
    rw [hr]
    by_cases hlt : d < 128
    · simp [hlt]
    · simp [hlt]
  have hval : (if Nat.land d 0x80 = 0 then 1 else 0) = (if d < 128 then 1 else 0) := by
    by_cases hlt : d < 128
    · rw [if_pos (hr0.mpr hlt), if_pos hlt]
    · rw [if_neg (fun h => hlt (hr0.mp h)), if_neg hlt]
  have hpair : ∀ kc : Nat → Nat, d < 128 → kc d ≠ 0 →
      Nat.lor d 0x80 ≠ 0xe0 → Nat.lor d 0x80 ≠ 0xe1 →
      key_events (xtkbd_interrupt kc d) = [(kc d, 1)] ∧
      key_events (xtkbd_interrupt kc (Nat.lor d 0x80)) = [(kc d, 0)] := by
    intro kc hlt hkey hn0 hn1
    have hl : Nat.lor d 0x80 = d + 128 := lor_release d hlt
    have hm : d % 128 = d := Nat.mod_eq_of_lt hlt
    have hm2 : (d + 128) % 128 = d := by omega
    constructor
    · rw [xtkbd_interrupt_eq kc d hd (by unfold XTKBD_EMUL0; omega)
        (by unfold XTKBD_EMUL1; omega), hm, if_pos hkey, if_pos hlt]
      rfl
    · rw [hl] at hn0 hn1 ⊢
      rw [xtkbd_interrupt_eq kc (d + 128) (by omega) hn0 hn1, hm2, if_pos hkey,
        if_neg (by omega)]
      rfl
  refine ⟨?_, ?_, ?_, ?_, hk, hr0, hpair keycode, ?_⟩
  · by_cases hf : d = XTKBD_EMUL0 ∨ d = XTKBD_EMUL1
    · unfold xtkbd_interrupt
      rw [if_pos hf]
      exact Nat.zero_le _
    · rw [xtkbd_interrupt_eq keycode d hd (fun h => hf (Or.inl h)) (fun h => hf (Or.inr h))]
      split
      · exact le_refl _
      · exact Nat.zero_le _
  · intro hf
    have hf2 : d = XTKBD_EMUL0 ∨ d = XTKBD_EMUL1 := hf
    unfold xtkbd_interrupt
    rw [if_pos hf2]
  · intro h0 h1 hkey
    rw [hk] at hkey ⊢
    rw [xtkbd_interrupt_eq keycode d hd h0 h1, if_pos hkey, hval]
    rfl
  · intro h0 h1 hkey
    rw [hk] at hkey
    rw [xtkbd_interrupt_eq keycode d hd h0 h1, if_neg (fun h => h hkey)]
    rfl
  · intro hlt hkey
    have hl : Nat.lor d 0x80 = d + 128 := lor_release d hlt
    have h60 : xtkbd_keycode 0x60 = 0 := by decide
    have h61 : xtkbd_keycode 0x61 = 0 := by decide
    have hn0 : Nat.lor d 0x80 ≠ 0xe0 := by
      rw [hl]
      intro he
      have hd60 : d = 0x60 := by omega
      rw [hd60] at hkey
      exact hkey h60
    have hn1 : Nat.lor d 0x80 ≠ 0xe1 := by
      rw [hl]
      intro he
      have hd61 : d = 0x61 := by omega
      rw [hd61] at hkey
      exact hkey h61
    exact ⟨hn0, hn1, hpair xtkbd_keycode hlt hkey hn0 hn1⟩

/-- C23 at concrete inputs: with the default table, scancode `0x1e` reports
key 30 pressed and its release byte `0x9e` reports key 30 released; the prefix
`0xe0` reports nothing. -/
theorem xtkbd_interrupt_reports_witness :
    key_events (xtkbd_interrupt xtkbd_keycode 0x1e) = [(30, 1)] ∧
      key_events (xtkbd_interrupt xtkbd_keycode 0x9e) = [(30, 0)] ∧
      xtkbd_interrupt xtkbd_keycode 0xe0 = [] := by
  have h := xtkbd_interrupt_reports xtkbd_keycode 0x1e (by decide)
  have h2 := (xtkbd_interrupt_reports xtkbd_keycode 0xe0 (by decide)).2.1 (Or.inl rfl)
  obtain ⟨_, _, p1, p2⟩ := h.2.2.2.2.2.2.2 (by decide) (by decide)
  exact ⟨p1, p2, h2⟩

end Fbcon
